import Mathlib

/-!
# Flowscribe core: a shallow embedding in Lean 4

This file embeds the extraction / aggregation / rendering core of the
Flowscribe pipeline and proves (or refutes) the specified properties of:

* `DeptracToC4Converter._load`         (scripts/c4-level2-generator.py)
* `C4Level3Generator._parse_components`, `_parse_components_from_filesystem`,
  `_parse_violations_for_dependencies`, `generate_layer_component_diagram`,
  `generate_component_list`            (scripts/c4-level3-generator.py)
* `_extract_v1`, `_extract_legacy`, `read_all_metrics`,
  `generate_master_index` (footnote logic), `render_rich_layered_mermaid`
                                       (scripts/create-master-index.py)
* `mermaid_safe_id`, `MermaidIdRegistry.uid` (scripts/flowscribe_utils.py)
* `normalize_mermaid_block` (directive rewrite)
                                       (scripts/sanitize_output_files.py)

Python strings are modelled as `List Char` (wrapped in `String` at the
interfaces), Python `dict`s as insertion-ordered association lists, JSON
values as the inductive `J`, exceptions as `Except PyErr`, and floats as
exact rationals (`Rat`).  Machine-level float rounding is outside the model;
every claim settled here is about branch/threshold logic, not rounding.
-/

/-! ## Python string primitives

`pyFindSplit sep s` scans `s` left to right for the first occurrence of the
(nonempty) separator `sep` and returns the pieces before and after it.  It is
the single primitive underlying the embeddings of Python `in` (substring
test), `str.split(sep)` and `str.split(sep, 1)`. -/

/-- Boolean prefix test on character lists (`==` is `decide (· = ·)`). -/
def prefixB : List Char → List Char → Bool
  | [], _ => true
  | _ :: _, [] => false
  | a :: as, b :: bs => (a == b) && prefixB as bs

theorem prefixB_iff (p s : List Char) : prefixB p s = true ↔ p <+: s := by
  induction p generalizing s with
  | nil => simp [prefixB]
  | cons a as ih =>
    cases s with
    | nil =>
      simp only [prefixB]
      constructor
      · intro h; cases h
      · intro h
        have := h.length_le
        simp at this
    | cons b bs =>
      simp only [prefixB, Bool.and_eq_true, beq_iff_eq, ih, List.cons_prefix_cons]

/-- First occurrence of `sep` in `s`: `some (before, after)` or `none`.
Mirrors Python's left-to-right substring scan. -/
def pyFindSplit (sep : List Char) : List Char → Option (List Char × List Char)
  | [] => none
  | c :: cs =>
    if prefixB sep (c :: cs) then some ([], (c :: cs).drop sep.length)
    else match pyFindSplit sep cs with
      | none => none
      | some (a, b) => some (c :: a, b)

theorem pyFindSplit_eq_append {sep s a b : List Char}
    (h : pyFindSplit sep s = some (a, b)) : s = a ++ sep ++ b := by
  induction s generalizing a b with
  | nil => simp [pyFindSplit] at h
  | cons c cs ih =>
    by_cases hp : prefixB sep (c :: cs) = true
    · rw [pyFindSplit, if_pos hp] at h
      obtain ⟨t, ht⟩ := (prefixB_iff _ _).mp hp
      cases h
      have hd : (c :: cs).drop sep.length = t := by
        conv_lhs => rw [← ht]
        exact List.drop_left sep t
      rw [hd]
      simp [← ht]
    · rw [pyFindSplit, if_neg hp] at h
      cases hfs : pyFindSplit sep cs with
      | none => rw [hfs] at h; cases h
      | some ab =>
        obtain ⟨a', b'⟩ := ab
        rw [hfs] at h
        cases h
        simp [ih hfs]

theorem pyFindSplit_length {sep s a b : List Char} (hsep : sep ≠ [])
    (h : pyFindSplit sep s = some (a, b)) : b.length < s.length := by
  have := pyFindSplit_eq_append h
  subst this
  have : 0 < sep.length := List.length_pos.mpr hsep
  simp only [List.length_append]
  omega

/-- Python `sub in s` (substring containment, nonempty `sub`). -/
def pyIn (sub s : List Char) : Bool := (pyFindSplit sub s).isSome

/-- Whenever `pyFindSplit` succeeds, the separator occurs in the string. -/
theorem pyIn_of_findSplit {sep s a b : List Char}
    (h : pyFindSplit sep s = some (a, b)) : pyIn sep s = true := by
  simp [pyIn, h]

theorem pyIn_of_parts {sub : List Char} (a b : List Char) (hsub : sub ≠ []) :
    pyIn sub (a ++ sub ++ b) = true := by
  induction a with
  | nil =>
    cases sub with
    | nil => exact absurd rfl hsub
    | cons x xs =>
      have hp : prefixB (x :: xs) (x :: (xs ++ b)) = true := by
        rw [prefixB_iff]
        exact ⟨b, by simp⟩
      simp only [List.nil_append, List.cons_append]
      rw [pyIn, pyFindSplit, if_pos hp]
      simp
  | cons c cs ih =>
    show (pyFindSplit sub (c :: (cs ++ sub ++ b))).isSome = true
    rw [pyFindSplit]
    by_cases hp : prefixB sub (c :: (cs ++ sub ++ b)) = true
    · rw [if_pos hp]; simp
    · rw [if_neg hp]
      rw [pyIn] at ih
      rw [Option.isSome_iff_exists] at ih
      obtain ⟨⟨a', b'⟩, ha'⟩ := ih
      rw [ha']
      simp

theorem pyIn_iff_exists {sub : List Char} (s : List Char) (hsub : sub ≠ []) :
    pyIn sub s = true ↔ ∃ a b, s = a ++ sub ++ b := by
  constructor
  · intro h
    rw [pyIn, Option.isSome_iff_exists] at h
    obtain ⟨⟨a, b⟩, hab⟩ := h
    exact ⟨a, b, pyFindSplit_eq_append hab⟩
  · intro ⟨a, b, hab⟩
    subst hab
    exact pyIn_of_parts a b hsub

/-- An occurrence inside an infix extends to the whole string. -/
theorem pyIn_of_infix {sub t s : List Char} (hsub : sub ≠ [])
    (h : pyIn sub t = true) (hinf : t <:+: s) : pyIn sub s = true := by
  rw [pyIn_iff_exists t hsub] at h
  rw [pyIn_iff_exists s hsub]
  obtain ⟨a, b, rfl⟩ := h
  obtain ⟨l, r, rfl⟩ := hinf
  exact ⟨l ++ a, b ++ r, by simp⟩

/-- Split worker: `fuel ≥ s.length` makes it exactly Python `split`
(each recursive call strictly shrinks the string, and on fuel `0` the
remaining string is empty, for which `[s]` is the correct answer). -/
def pySplitAux (sep : List Char) : Nat → List Char → List (List Char)
  | 0, s => [s]
  | n + 1, s =>
    match pyFindSplit sep s with
    | none => [s]
    | some (a, b) => a :: pySplitAux sep n b

/-- Python `s.split(sep)` for nonempty `sep`: all pieces, empties kept. -/
def pySplit (sep s : List Char) : List (List Char) :=
  if sep = [] then [s] else pySplitAux sep s.length s

theorem pySplitAux_ne_nil (sep : List Char) (n : Nat) (s : List Char) :
    pySplitAux sep n s ≠ [] := by
  cases n with
  | zero => simp [pySplitAux]
  | succ m =>
    rw [pySplitAux]
    cases pyFindSplit sep s with
    | none => simp
    | some ab => cases ab; simp

theorem pySplit_ne_nil (sep s : List Char) : pySplit sep s ≠ [] := by
  rw [pySplit]
  split
  · simp
  · exact pySplitAux_ne_nil sep s.length s

theorem pySplitAux_mem_infix {sep : List Char} :
    ∀ (n : Nat) (s p : List Char), p ∈ pySplitAux sep n s → p <:+: s := by
  intro n
  induction n with
  | zero =>
    intro s p hp
    simp only [pySplitAux, List.mem_singleton] at hp
    simp [hp]
  | succ m ih =>
    intro s p hp
    rw [pySplitAux] at hp
    revert hp
    cases hfs : pyFindSplit sep s with
    | none =>
      intro hp
      simp only [List.mem_singleton] at hp
      simp [hp]
    | some ab =>
      obtain ⟨a, b⟩ := ab
      intro hp
      have hs := pyFindSplit_eq_append hfs
      rcases List.mem_cons.mp hp with rfl | hmem
      · exact ⟨[], sep ++ b, by simp [hs]⟩
      · exact (ih b p hmem).trans ⟨a ++ sep, [], by simp [hs]⟩

/-- Every piece produced by `pySplit` is an infix of the input. -/
theorem pySplit_mem_infix {sep s p : List Char} (h : p ∈ pySplit sep s) :
    p <:+: s := by
  by_cases hsep : sep = []
  · rw [pySplit, if_pos hsep] at h
    simp only [List.mem_singleton] at h
    simp [h]
  · rw [pySplit, if_neg hsep] at h
    exact pySplitAux_mem_infix s.length s p h

/-- Python `s.split(sep, 1)`. -/
def pySplit1 (sep s : List Char) : List (List Char) :=
  match pyFindSplit sep s with
  | none => [s]
  | some (a, b) => [a, b]

/-- Python `s.rstrip(c)`-style right strip of all chars satisfying `p`. -/
def rstripP (p : Char → Bool) (s : List Char) : List Char :=
  (s.reverse.dropWhile p).reverse

theorem rstripP_pref (p : Char → Bool) (s : List Char) : rstripP p s <+: s := by
  rw [rstripP, ← List.reverse_suffix, List.reverse_reverse]
  exact List.dropWhile_suffix p

/-- Python `s.lstrip(c)`-style left strip. -/
def lstripP (p : Char → Bool) (s : List Char) : List Char := s.dropWhile p

/-- The character class of Python's default `str.strip()`. -/
def pyWs (c : Char) : Bool :=
  c == ' ' || c == '\t' || c == '\n' || c == '\x0d' || c == '\x0b' || c == '\x0c'

/-- Python `s.strip()` (default whitespace, ASCII range). -/
def pyStrip (s : List Char) : List Char := rstripP pyWs (lstripP pyWs s)

/-- Replace worker, fueled exactly like `pySplitAux`. -/
def pyReplaceAux (old new : List Char) : Nat → List Char → List Char
  | 0, s => s
  | n + 1, s =>
    match pyFindSplit old s with
    | none => s
    | some (a, b) => a ++ new ++ pyReplaceAux old new n b

/-- Python `s.replace(old, new)` for nonempty `old` (all occurrences). -/
def pyReplace (old new s : List Char) : List Char :=
  if old = [] then s else pyReplaceAux old new s.length s

/-- Python `s.lower()` (ASCII case fold; the repository only feeds it
file-path characters). -/
def pyLower (s : List Char) : List Char := s.map Char.toLower

/-- Last element (empty-string default), as Python's `lst[-1]` on a
provably nonempty list. -/
def lastD : List (List Char) → List Char
  | [] => []
  | [a] => a
  | _ :: b :: rest => lastD (b :: rest)

theorem lastD_mem : ∀ {l : List (List Char)}, l ≠ [] → lastD l ∈ l := by
  intro l
  induction l with
  | nil => simp
  | cons a as ih =>
    intro _
    cases as with
    | nil => simp [lastD]
    | cons b bs =>
      rw [lastD]
      exact List.mem_cons_of_mem a (ih (by simp))

/-- `s.split(sep)[-1]` is an infix of `s`. -/
theorem lastD_pySplit_inf (sep s : List Char) :
    lastD (pySplit sep s) <:+: s :=
  pySplit_mem_infix (lastD_mem (pySplit_ne_nil sep s))

/-! ## JSON values and Python dynamic semantics -/

/-- A parsed JSON value (Python object after `json.loads` / `yaml.safe_load`).
`int` and `float` are kept apart because Python's `str()` distinguishes them;
floats are modelled as exact rationals. -/
inductive J where
  | null : J
  | bool (b : Bool) : J
  | int (n : Int) : J
  | float (q : Rat) : J
  | str (s : String) : J
  | arr (xs : List J) : J
  | obj (kvs : List (String × J)) : J

/-- The Python exceptions the embedded code can raise. -/
inductive PyErr where
  | typeError : PyErr
  | attributeError : PyErr
  | keyError : PyErr
  | valueError : PyErr
deriving DecidableEq, Repr

mutual

/-- Structural equality on JSON values (Python `==` on parsed JSON). -/
def J.beq : J → J → Bool
  | .null, .null => true
  | .bool a, .bool b => a == b
  | .int a, .int b => a == b
  | .float a, .float b => a == b
  | .str a, .str b => a == b
  | .arr xs, .arr ys => J.beqList xs ys
  | .obj xs, .obj ys => J.beqKVList xs ys
  | _, _ => false

def J.beqList : List J → List J → Bool
  | [], [] => true
  | a :: as, b :: bs => J.beq a b && J.beqList as bs
  | _, _ => false

def J.beqKVList : List (String × J) → List (String × J) → Bool
  | [], [] => true
  | (k, v) :: as, (l, w) :: bs => k == l && J.beq v w && J.beqKVList as bs
  | _, _ => false

end

/-- Python truthiness of a parsed JSON value. -/
def J.truthy : J → Bool
  | .null => false
  | .bool b => b
  | .int n => n != 0
  | .float q => q != 0
  | .str s => s != ""
  | .arr xs => !xs.isEmpty
  | .obj kvs => !kvs.isEmpty

/-- Python `x or y` (value-level short-circuit `or`). -/
def J.pyOr (x y : J) : J := if x.truthy then x else y

/-- Key lookup in a parsed JSON object (`none` when the key is absent).
Parsed JSON objects carry no duplicate keys. -/
def jFind : List (String × J) → String → Option J
  | [], _ => none
  | (k', v) :: rest, k => if k' == k then some v else jFind rest k

/-- Python `d.get(k)`: `None` when absent, `AttributeError` on a non-dict. -/
def J.get? (j : J) (k : String) : Except PyErr J :=
  match j with
  | .obj kvs => .ok ((jFind kvs k).getD .null)
  | _ => .error .attributeError

/-- Python `d.get(k, default)`. -/
def J.getD (j : J) (k : String) (d : J) : Except PyErr J :=
  match j with
  | .obj kvs => .ok ((jFind kvs k).getD d)
  | _ => .error .attributeError

/-- Python `d[k]`: `KeyError` when absent, `TypeError` on a non-dict. -/
def J.index (j : J) (k : String) : Except PyErr J :=
  match j with
  | .obj kvs =>
    match jFind kvs k with
    | some v => .ok v
    | none => .error .keyError
  | _ => .error .typeError

/-- Python `for x in j`: lists yield elements, strings yield 1-char strings,
dicts yield their keys, everything else raises `TypeError`. -/
def J.iter : J → Except PyErr (List J)
  | .arr xs => .ok xs
  | .str s => .ok (s.data.map fun c => J.str (String.mk [c]))
  | .obj kvs => .ok (kvs.map fun kv => J.str kv.1)
  | _ => .error .typeError

/-- Fold a fallible step over a list, stopping at the first exception
(Python `for` loop with a raising body). -/
def foldE {σ α : Type} (f : σ → α → Except PyErr σ) : σ → List α → Except PyErr σ
  | s, [] => .ok s
  | s, a :: as =>
    match f s a with
    | .error e => .error e
    | .ok s' => foldE f s' as

/-- Python `set.add` on an insertion-ordered set of JSON values. -/
def setAdd (s : List J) (x : J) : List J :=
  if s.any (fun y => J.beq y x) then s else s ++ [x]

/-- `defaultdict(set)` update `d[k].add(v)` (insertion-ordered). -/
def layersAdd : List (J × List J) → J → J → List (J × List J)
  | [], k, v => [(k, [v])]
  | (k', s) :: rest, k, v =>
    if J.beq k' k then (k', setAdd s v) :: rest
    else (k', s) :: layersAdd rest k v

/-- `collections.Counter` update `c[key] += 1` (insertion-ordered). -/
def counterIncr : List ((J × J) × Nat) → J × J → List ((J × J) × Nat)
  | [], k => [(k, 1)]
  | (k', n) :: rest, k =>
    if J.beq k'.1 k.1 && J.beq k'.2 k.2 then (k', n + 1) :: rest
    else (k', n) :: counterIncr rest k

/-- Total of all counts in a Counter. -/
def counterTotal (c : List ((J × J) × Nat)) : Nat := (c.map (·.2)).sum

theorem counterTotal_incr (c : List ((J × J) × Nat)) (k : J × J) :
    counterTotal (counterIncr c k) = counterTotal c + 1 := by
  induction c with
  | nil => simp [counterIncr, counterTotal]
  | cons p rest ih =>
    obtain ⟨k', n⟩ := p
    rw [counterIncr]
    split
    · simp only [counterTotal, List.map_cons, List.sum_cons]
      omega
    · simp only [counterTotal, List.map_cons, List.sum_cons] at ih ⊢
      omega

/-! ## DeptracToC4Converter._load (scripts/c4-level2-generator.py, 59-114)

The converter's report normalizer: both report shapes are probed, every
parsed violation appends one record, tags two layer/file sets and bumps the
`(from_layer, to_layer)` Counter once. -/

/-- One parsed violation record (`self.violations` entries).  Field values
are JSON values because the Python code stores whatever the report holds;
`line` is `J.null` when absent, like Python `None`. -/
structure Violation where
  rule : J
  from_layer : J
  to_layer : J
  file : J
  line : J

/-- The converter state built by `_load`. -/
structure LoadState where
  violations : List Violation
  layers : List (J × List J)
  dependencies : List ((J × J) × Nat)

/-- Literal `"("` as a char list. -/
def lparenC : List Char := [Char.ofNat 40]

/-- Literal `" on "` as a char list. -/
def onC : List Char := (" on " : String).data

/-- Format-1 loop body (`for v in obj["violations"]`, lines 63-80). -/
def l2Violation (st : LoadState) (v : J) : Except PyErr LoadState := do
  let rule ← J.getD v "rule" (J.str "unknown")
  let depender := J.pyOr (← J.getD v "depender" (J.obj [])) (J.obj [])
  let dependent := J.pyOr (← J.getD v "dependent" (J.obj [])) (J.obj [])
  let f_layer := J.pyOr (← J.get? depender "layer") (J.str "Unknown")
  let t_layer := J.pyOr (← J.get? dependent "layer") (J.str "Unknown")
  let f_file := J.pyOr (← J.get? depender "file") (J.str "")
  let f_line ← J.get? depender "line"
  let t_file := J.pyOr (← J.get? dependent "file") t_layer
  Except.ok { violations := st.violations ++
                [⟨rule, f_layer, t_layer, f_file, f_line⟩]
              layers := layersAdd (layersAdd st.layers f_layer
                (J.pyOr f_file f_layer)) t_layer t_file
              dependencies := counterIncr st.dependencies (f_layer, t_layer) }

/-- Lines 88-92: the explicit layer metadata of one message —
`dep = m.get("dependency") or {}`, `frm = dep.get("depender") or {}`,
`to = dep.get("dependent") or {}`, then `frm.get("layer")` and
`to.get("layer")`. -/
def l2MsgExplicit (m : J) : Except PyErr (J × J) := do
  let dep := J.pyOr (← J.get? m "dependency") (J.obj [])
  let frm := J.pyOr (← J.get? dep "depender") (J.obj [])
  let tod := J.pyOr (← J.get? dep "dependent") (J.obj [])
  let f0 ← J.get? frm "layer"
  let t0 ← J.get? tod "layer"
  Except.ok (f0, t0)

/-- Line 95: `msg = m.get("message") or ""`. -/
def l2MsgText (m : J) : Except PyErr J := do
  Except.ok (J.pyOr (← J.get? m "message") (J.str ""))

/-- Coerce to a string or raise `TypeError` — Python raises exactly this,
at the `"(" in msg` test, when a truthy non-string `message` reaches it. -/
def J.asStr : J → Except PyErr String
  | .str s => .ok s
  | _ => .error .typeError

/-- Lines 96-99 on a string message: `"(" in msg and " on " in msg`, then
`tail = msg.split("(")[-1].rstrip(")")`, then `tail.split(" on ", 1)` with
both sides stripped; on any failed test the explicit layers stand. -/
def l2MsgParse (f0 t0 : J) (s : String) : J × J :=
  if pyIn lparenC s.data && pyIn onC s.data then
    match pyFindSplit onC (rstripP (· == ')') (lastD (pySplit lparenC s.data))) with
    | some (x, y) =>
      (J.str (String.mk (pyStrip x)), J.str (String.mk (pyStrip y)))
    | none => (f0, t0)
  else (f0, t0)

/-- The message-text layer-pair extraction of lines 93-99: run only when the
explicit layers are not both truthy. -/
def l2MsgLayers (f0 t0 : J) (m : J) : Except PyErr (J × J) := do
  if J.truthy f0 && J.truthy t0 then
    Except.ok (f0, t0)
  else
    let msg0 ← l2MsgText m
    let s ← J.asStr msg0
    Except.ok (l2MsgParse f0 t0 s)

/-- Format-2 message loop body (lines 86-111). -/
def l2Message (filePath : String) (st : LoadState) (m : J) :
    Except PyErr LoadState := do
  let rule ← J.getD m "rule" (J.str "unknown")
  let ft0 ← l2MsgExplicit m
  let ft ← l2MsgLayers ft0.1 ft0.2 m
  let f_layer := J.pyOr ft.1 (J.str "Unknown")
  let t_layer := J.pyOr ft.2 (J.str "Unknown")
  let line ← J.get? m "line"
  Except.ok { violations := st.violations ++
                [⟨rule, f_layer, t_layer, J.str filePath, line⟩]
              layers := layersAdd (layersAdd st.layers f_layer
                (J.str filePath)) t_layer (J.str filePath)
              dependencies := counterIncr st.dependencies (f_layer, t_layer) }

/-- Format-2 file loop body (lines 85-90). -/
def l2File (st : LoadState) (fp : String) (fd : J) : Except PyErr LoadState := do
  let msgs ← J.getD fd "messages" (J.arr [])
  let items ← J.iter msgs
  foldE (l2Message fp) st items

/-- Format-1 block (lines 62-80): `isinstance(obj, dict) and "violations" in
obj and isinstance(obj["violations"], list)` guards the loop. -/
def l2Format1 (obj : J) : Except PyErr LoadState :=
  match obj with
  | J.obj kvs =>
    match jFind kvs "violations" with
    | some (J.arr vs) => foldE l2Violation ⟨[], [], []⟩ vs
    | _ => .ok ⟨[], [], []⟩
  | _ => .ok ⟨[], [], []⟩

/-- Format-2 block (lines 83-111): `isinstance(files, dict)` guards the loop
over `files.items()`. -/
def l2Format2 (st : LoadState) (files : J) : Except PyErr LoadState :=
  match files with
  | J.obj fkvs => foldE (fun st kv => l2File st kv.1 kv.2) st fkvs
  | _ => .ok st

/-- `DeptracToC4Converter._load` on the parsed report object (lines 59-114):
probe format 1 (`violations` list), then format 2 (`files` mapping), then
prune empty layers.  `obj.get("files")` raises on a non-dict report, as in
Python. -/
def l2Load (obj : J) : Except PyErr LoadState := do
  let st1 ← l2Format1 obj
  let files ← J.get? obj "files"
  let st2 ← l2Format2 st1 files
  Except.ok { st2 with layers := st2.layers.filter fun kv => !kv.2.isEmpty }

/-! ## C9: one counter bump per parsed violation record -/

/-- Inverting a successful `Except` bind. -/
theorem bindE_ok {α β : Type} {x : Except PyErr α} {f : α → Except PyErr β}
    {b : β} (h : x >>= f = Except.ok b) :
    ∃ a, x = Except.ok a ∧ f a = Except.ok b := by
  cases x with
  | error e =>
    have h' : (Except.error e : Except PyErr β) = Except.ok b := h
    cases h'
  | ok a =>
    have h' : f a = Except.ok b := h
    exact ⟨a, rfl, h'⟩

theorem foldE_inv {σ α : Type} (P : σ → Prop) (f : σ → α → Except PyErr σ)
    (hf : ∀ s a s', f s a = .ok s' → P s → P s') :
    ∀ (l : List α) (s s' : σ), foldE f s l = .ok s' → P s → P s' := by
  intro l
  induction l with
  | nil =>
    intro s s' h hp
    rw [foldE] at h
    cases h
    exact hp
  | cons a as ih =>
    intro s s' h hp
    rw [foldE] at h
    cases hfa : f s a with
    | error e => rw [hfa] at h; cases h
    | ok s1 => rw [hfa] at h; exact ih s1 s' h (hf s a s1 hfa hp)

/-- Every successful format-1 step appends exactly one violation and bumps
the layer-pair Counter exactly once. -/
theorem l2Violation_ok {st : LoadState} {v : J} {st' : LoadState}
    (h : l2Violation st v = Except.ok st') :
    ∃ w k L, st' = ⟨st.violations ++ [w], L, counterIncr st.dependencies k⟩ := by
  unfold l2Violation at h
  obtain ⟨rule, h1, h⟩ := bindE_ok h
  obtain ⟨dep0, h2, h⟩ := bindE_ok h
  obtain ⟨dep1, h3, h⟩ := bindE_ok h
  obtain ⟨fl0, h4, h⟩ := bindE_ok h
  obtain ⟨tl0, h5, h⟩ := bindE_ok h
  obtain ⟨ff0, h6, h⟩ := bindE_ok h
  obtain ⟨fline, h7, h⟩ := bindE_ok h
  obtain ⟨tf0, h8, h⟩ := bindE_ok h
  simp only [Except.ok.injEq] at h
  exact ⟨_, _, _, h.symm⟩

/-- Every successful format-2 message step appends exactly one violation and
bumps the layer-pair Counter exactly once. -/
theorem l2Message_ok {fp : String} {st : LoadState} {m : J} {st' : LoadState}
    (h : l2Message fp st m = Except.ok st') :
    ∃ w k L, st' = ⟨st.violations ++ [w], L, counterIncr st.dependencies k⟩ := by
  unfold l2Message at h
  obtain ⟨rule, h1, h⟩ := bindE_ok h
  obtain ⟨ft0, h2, h⟩ := bindE_ok h
  obtain ⟨ft, h3, h⟩ := bindE_ok h
  obtain ⟨line, h4, h⟩ := bindE_ok h
  simp only [Except.ok.injEq] at h
  exact ⟨_, _, _, h.symm⟩

/-- The Counter-total / record-count invariant. -/
def countsBalanced (st : LoadState) : Prop :=
  counterTotal st.dependencies = st.violations.length

theorem l2Violation_balanced (st : LoadState) (v : J) (st' : LoadState)
    (h : l2Violation st v = Except.ok st') (hp : countsBalanced st) :
    countsBalanced st' := by
  obtain ⟨w, k, L, rfl⟩ := l2Violation_ok h
  rw [countsBalanced] at hp ⊢
  simp [counterTotal_incr, hp]

theorem l2Message_balanced (fp : String) (st : LoadState) (m : J)
    (st' : LoadState) (h : l2Message fp st m = Except.ok st')
    (hp : countsBalanced st) : countsBalanced st' := by
  obtain ⟨w, k, L, rfl⟩ := l2Message_ok h
  rw [countsBalanced] at hp ⊢
  simp [counterTotal_incr, hp]

theorem l2File_balanced (st : LoadState) (fp : String) (fd : J)
    (st' : LoadState) (h : l2File st fp fd = Except.ok st')
    (hp : countsBalanced st) : countsBalanced st' := by
  unfold l2File at h
  obtain ⟨msgs, h1, h⟩ := bindE_ok h
  obtain ⟨items, h2, h⟩ := bindE_ok h
  exact foldE_inv countsBalanced (l2Message fp)
    (fun s a s' hs => l2Message_balanced fp s a s' hs) _ _ _ h hp

/-- C9 (claim): after a successful `_load`, the total of the layer-pair
Counter equals the number of parsed violation records — each record bumped
exactly one `(from_layer, to_layer)` key by exactly one, regardless of
whether any component was resolved from the message text. -/
theorem l2Load_counter_total (obj : J) (st : LoadState)
    (h : l2Load obj = Except.ok st) :
    counterTotal st.dependencies = st.violations.length := by
  unfold l2Load at h
  have h0 : countsBalanced ⟨[], [], []⟩ := by
    rw [countsBalanced]; rfl
  obtain ⟨st1, h1, h⟩ := bindE_ok h
  obtain ⟨files, h2, h⟩ := bindE_ok h
  obtain ⟨st2, h3, h⟩ := bindE_ok h
  have hb1 : countsBalanced st1 := by
    unfold l2Format1 at h1
    revert h1
    split
    · split
      · intro h1
        exact foldE_inv countsBalanced l2Violation
          (fun s a s' hs => l2Violation_balanced s a s' hs) _ _ _ h1 h0
      · intro h1; cases h1; exact h0
    · intro h1; cases h1; exact h0
  have hb2 : countsBalanced st2 := by
    unfold l2Format2 at h3
    revert h3
    split
    · intro h3
      exact foldE_inv countsBalanced
        (fun (s : LoadState) (kv : String × J) => l2File s kv.1 kv.2)
        (fun s a s' hs => l2File_balanced s a.1 a.2 s' hs) _ _ _ h3 hb1
    · intro h3; cases h3; exact hb1
  simp only [Except.ok.injEq] at h
  subst h
  exact hb2

/-- Concrete report exercising both shapes, for the C9 witness. -/
def c9Report : J := J.obj
  [("violations", J.arr [J.obj
      [("rule", J.str "LayerRule"),
       ("depender", J.obj [("layer", J.str "Presentation"),
          ("file", J.str "A.php"), ("line", J.int 3)]),
       ("dependent", J.obj [("layer", J.str "Domain"),
          ("file", J.str "B.php")])]]),
   ("files", J.obj [("Foo.php", J.obj [("messages", J.arr
      [J.obj [("message",
          J.str "Foo must not depend on Bar (Presentation on Domain)"),
        ("line", J.int 10)]])])])]

/-- The state `_load` builds from `c9Report`. -/
def c9State : LoadState :=
  { violations :=
      [⟨J.str "LayerRule", J.str "Presentation", J.str "Domain",
        J.str "A.php", J.int 3⟩,
       ⟨J.str "unknown", J.str "Presentation", J.str "Domain",
        J.str "Foo.php", J.int 10⟩]
    layers :=
      [(J.str "Presentation", [J.str "A.php", J.str "Foo.php"]),
       (J.str "Domain", [J.str "B.php", J.str "Foo.php"])]
    dependencies := [((J.str "Presentation", J.str "Domain"), 2)] }

/-- Witness for C9 at a concrete report. -/
theorem l2Load_counter_total_witness :
    l2Load c9Report = Except.ok c9State ∧
    counterTotal c9State.dependencies = c9State.violations.length :=
  ⟨by rfl, l2Load_counter_total c9Report c9State (by rfl)⟩

/-! ## C1: the "(X on Y)" extraction rule -/

/-- Modelled from the spec (section 4.1 extraction rule, quoted by the
claim): take the text after the last `(`, strip the trailing `)`, split on
the literal substring `" on "`; the left side is the source layer, the
right side the target layer; `none` when no `(` occurs or the split fails. -/
def specLayerPairExtract (msg : String) : Option (String × String) :=
  if pyIn lparenC msg.data then
    match pyFindSplit onC (rstripP (· == ')') (lastD (pySplit lparenC msg.data))) with
    | some (x, y) => some (String.mk x, String.mk y)
    | none => none
  else none

/-- Python `x.strip()` at `String` level. -/
def pyStripS (s : String) : String := String.mk (pyStrip s.data)

/-- Report refuting C1 as stated: the first message carries explicit
depender/dependent layers `P`/`Q` which take precedence over the
parenthesized pair `(A on B)`; the second message's extracted source layer
strips to the empty string, which the code coalesces to `"Unknown"`. -/
def c1Report : J := J.obj [("files", J.obj [("F.php", J.obj [("messages",
  J.arr
    [J.obj [("message", J.str "x must not depend on q (A on B)"),
        ("dependency", J.obj
          [("depender", J.obj [("layer", J.str "P")]),
           ("dependent", J.obj [("layer", J.str "Q")])])],
     J.obj [("message", J.str "y ( on B)")]])])])]

/-- C1 is false as stated: both messages end in an extractable `(X on Y)`
pair (`("A", "B")` and `("", "B")` respectively), yet the recorded layers
are `("P", "Q")` (explicit metadata wins) and `("Unknown", "B")` (empty
stripped name coalesced), so `from_layer` is not `X.strip()` for either. -/
theorem l2_extraction_claim_counterexample :
    (l2Load c1Report).map
        (fun st => st.violations.map fun v => (v.from_layer, v.to_layer)) =
      Except.ok [(J.str "P", J.str "Q"), (J.str "Unknown", J.str "B")] ∧
    specLayerPairExtract "x must not depend on q (A on B)" =
      some ("A", "B") ∧
    specLayerPairExtract "y ( on B)" = some ("", "B") ∧
    (J.str "P" = J.str (pyStripS "A") → False) ∧
    (J.str "Unknown" = J.str (pyStripS "") → False) := by
  refine ⟨by rfl, by rfl, by rfl, ?_, ?_⟩
  · intro h
    injection h with h
    exact absurd h (by decide)
  · intro h
    injection h with h
    exact absurd h (by decide)

/-- C1 (amended): for a files-shape message whose explicit
depender/dependent layers are not both truthy (they take precedence
otherwise), whenever the spec's extraction rule yields `(X, Y)` from the
message text, the recorded violation's `from_layer` is `X.strip()` and its
`to_layer` is `Y.strip()`, with an empty stripped name coalescing to
`"Unknown"` (expressed by `J.pyOr`). -/
theorem l2Message_records_extracted_layers
    (fp : String) (st : LoadState) (m : J) (st' : LoadState)
    (f0 t0 : J) (msg X Y : String)
    (hok : l2Message fp st m = Except.ok st')
    (hexp : l2MsgExplicit m = Except.ok (f0, t0))
    (hnb : ¬(J.truthy f0 = true ∧ J.truthy t0 = true))
    (hmsg : l2MsgText m = Except.ok (J.str msg))
    (hX : specLayerPairExtract msg = some (X, Y)) :
    ∃ w, st'.violations = st.violations ++ [w] ∧
      w.from_layer = J.pyOr (J.str (pyStripS X)) (J.str "Unknown") ∧
      w.to_layer = J.pyOr (J.str (pyStripS Y)) (J.str "Unknown") ∧
      w.file = J.str fp := by
  unfold l2Message at hok
  obtain ⟨rule, h1, hok⟩ := bindE_ok hok
  obtain ⟨ft0, h2, hok⟩ := bindE_ok hok
  obtain ⟨ft, h3, hok⟩ := bindE_ok hok
  obtain ⟨line, h4, hok⟩ := bindE_ok hok
  rw [hexp] at h2
  injection h2 with h2
  subst h2
  -- explicit layers not both truthy: the message text path is taken
  have hcond : (J.truthy f0 && J.truthy t0) = false := by
    cases hf : J.truthy f0 <;> cases ht : J.truthy t0 <;> simp_all
  unfold l2MsgLayers at h3
  simp only at h3
  rw [hcond] at h3
  simp only [Bool.false_eq_true, if_false] at h3
  obtain ⟨msg0, hm1, h3⟩ := bindE_ok h3
  rw [hmsg] at hm1
  injection hm1 with hm1
  subst hm1
  obtain ⟨s, hs1, h3⟩ := bindE_ok h3
  have hs2 : msg = s := by
    have : Except.ok (ε := PyErr) msg = Except.ok s := hs1
    injection this
  subst hs2
  -- the spec extraction succeeded, so the code branch tests succeed too
  unfold specLayerPairExtract at hX
  by_cases hlp : pyIn lparenC msg.data = true
  · rw [if_pos hlp] at hX
    revert hX
    cases hfs : pyFindSplit onC
        (rstripP (fun c => c == ')') (lastD (pySplit lparenC msg.data))) with
    | none => intro hX; cases hX
    | some xy =>
      obtain ⟨xc, yc⟩ := xy
      intro hX
      injection hX with hX
      have hXx : X = String.mk xc := congrArg Prod.fst hX.symm
      have hYy : Y = String.mk yc := congrArg Prod.snd hX.symm
      -- " on " occurs in the tail, hence in the whole message
      have hon : pyIn onC msg.data = true := by
        refine pyIn_of_infix (by decide) (pyIn_of_findSplit hfs) ?_
        exact (rstripP_pref _ _).isInfix.trans (lastD_pySplit_inf _ _)
      have hparse : l2MsgParse f0 t0 msg =
          (J.str (String.mk (pyStrip xc)), J.str (String.mk (pyStrip yc))) := by
        unfold l2MsgParse
        rw [hlp, hon]
        simp only [Bool.and_self, if_true]
        rw [hfs]
      rw [hparse] at h3
      have hft : ft = (J.str (String.mk (pyStrip xc)),
          J.str (String.mk (pyStrip yc))) := by
        have : Except.ok (ε := PyErr)
            (J.str (String.mk (pyStrip xc)), J.str (String.mk (pyStrip yc))) =
            Except.ok ft := h3
        injection this with this
        exact this.symm
      subst hft
      simp only [Except.ok.injEq] at hok
      subst hok
      refine ⟨_, rfl, ?_, ?_, rfl⟩
      · rw [hXx]; rfl
      · rw [hYy]; rfl
  · rw [if_neg hlp] at hX
    cases hX

/-- The spec's section-8 scenario message, for the C1 witness. -/
def c1wMsg : J := J.obj
  [("message", J.str "Foo must not depend on Bar (Presentation on Domain)"),
   ("line", J.int 10)]

/-- The state one `_load` message step builds from `c1wMsg`. -/
def c1wOut : LoadState :=
  { violations := [⟨J.str "unknown", J.str "Presentation", J.str "Domain",
      J.str "Foo.php", J.int 10⟩]
    layers := [(J.str "Presentation", [J.str "Foo.php"]),
               (J.str "Domain", [J.str "Foo.php"])]
    dependencies := [((J.str "Presentation", J.str "Domain"), 1)] }

/-- Witness for the amended C1 at the spec's scenario input. -/
theorem l2Message_records_extracted_layers_witness :
    ∃ w, c1wOut.violations =
        (⟨[], [], []⟩ : LoadState).violations ++ [w] ∧
      w.from_layer = J.pyOr (J.str (pyStripS "Presentation")) (J.str "Unknown") ∧
      w.to_layer = J.pyOr (J.str (pyStripS "Domain")) (J.str "Unknown") ∧
      w.file = J.str "Foo.php" :=
  l2Message_records_extracted_layers "Foo.php" ⟨[], [], []⟩ c1wMsg c1wOut
    J.null J.null "Foo must not depend on Bar (Presentation on Domain)"
    "Presentation" "Domain" (by rfl) (by rfl) (by decide) (by rfl) (by rfl)

/-! ## C4Level3Generator (scripts/c4-level3-generator.py)

The level-3 component catalog builder.  The constructor guarantees the
report is a dict, so the parse functions take its key/value list.  Python
`try`/`except` keeps the mutations made before an exception, so the
fallible folds below return the state reached so far together with the
exception, mirroring in-place mutation of `self`. -/

/-- One occurrence entry of `self.layer_components[layer][component]`:
`{'file': ..., 'message': ... or None, 'line': ... or None}`. -/
structure L3Occ where
  file : String
  message : Option String
  line : J

/-- One entry of `self.component_dependencies`. -/
structure L3Dep where
  from_ : String
  to_ : String
  from_layer : String
  to_layer : String

/-- The builder state (`self.layer_components`, `self.component_dependencies`). -/
structure L3State where
  layer_components : List (J × List (String × List L3Occ))
  component_dependencies : List L3Dep

/-- Inner `defaultdict(list)` append. -/
def occAppend : List (String × List L3Occ) → String → L3Occ →
    List (String × List L3Occ)
  | [], c, o => [(c, [o])]
  | (c', os) :: rest, c, o =>
    if c' == c then (c', os ++ [o]) :: rest
    else (c', os) :: occAppend rest c o

/-- `self.layer_components[layer][component].append(occ)` on the two-level
`defaultdict`. -/
def compAdd : List (J × List (String × List L3Occ)) → J → String → L3Occ →
    List (J × List (String × List L3Occ))
  | [], l, c, o => [(l, [(c, [o])])]
  | (l', comps) :: rest, l, c, o =>
    if J.beq l' l then (l', occAppend comps c o) :: rest
    else (l', comps) :: compAdd rest l c o

/-- Literal `".php"`. -/
def phpC : List Char := (".php" : String).data

/-- Literal `"depend on"`. -/
def dependOnC : List Char := ("depend on" : String).data

/-- Python `s.strip(c)` for one character (both sides). -/
def stripChar (c : Char) (s : List Char) : List Char :=
  rstripP (· == c) (lstripP (· == c) s)

/-- First element as Python's `lst[0]` with empty default (all uses are on
provably nonempty `split` results). -/
def headD (l : List (List Char)) : List Char := l.headD []

/-- `C4Level3Generator._extract_component_name` (lines 233-238):
`file_path.split('/')[-1].replace('.php', '')`. -/
def extractComponentName (filePath : String) : String :=
  String.mk (pyReplace phpC [] (lastD (pySplit [Char.ofNat 47] filePath.data)))

/-- `C4Level3Generator._simplify_class_name` (lines 240-245). -/
def simplifyClassName (className : String) : String :=
  if pyIn [Char.ofNat 92] className.data then
    String.mk (lastD (pySplit [Char.ofNat 92] className.data))
  else className

/-- `_parse_components` message body on a string message (lines 93-122):
note `layer_part.split(' on ')` is unpacked into exactly two names and
raises `ValueError` when the split yields more pieces. -/
def l3ParseMsgCore (fp comp : String) (line : J) (st : L3State) (s : String) :
    Except PyErr L3State :=
  let cs := s.data
  if pyIn onC cs && pyIn lparenC cs then
    let parts := pySplit lparenC cs
    if parts.length ≥ 2 then
      let layer_part := stripChar ')' (lastD parts)
      if pyIn onC layer_part then
        match pySplit onC layer_part with
        | [sl, tl] =>
          let source_layer := String.mk (pyStrip sl)
          let target_layer := String.mk (pyStrip tl)
          let st1 : L3State := { st with layer_components :=
            (compAdd st.layer_components (J.str source_layer) comp
              ⟨fp, some s, line⟩) }
          if pyIn dependOnC cs then
            let target_parts := pySplit dependOnC cs
            if target_parts.length ≥ 2 then
              let target_class :=
                pyStrip (headD (pySplit lparenC (target_parts.getD 1 [])))
              Except.ok { st1 with component_dependencies :=
                st1.component_dependencies ++
                  [⟨comp, simplifyClassName (String.mk target_class),
                    source_layer, target_layer⟩] }
            else Except.ok st1
          else Except.ok st1
        | _ => Except.error .valueError
      else Except.ok st
    else Except.ok st
  else Except.ok st

/-- `_parse_components` message step: `message_data.get('message', '')`
followed by the string tests (`TypeError` on a non-string message). -/
def l3MsgStep (fp comp : String) (st : L3State) (m : J) :
    Except PyErr L3State := do
  let msg0 ← J.getD m "message" (J.str "")
  let s ← J.asStr msg0
  let line ← J.get? m "line"
  l3ParseMsgCore fp comp line st s

/-- `_parse_components` file loop body (lines 86-122). -/
def l3File (st : L3State) (fp : String) (fd : J) : Except PyErr L3State := do
  let msgs ← J.getD fd "messages" (J.arr [])
  let items ← J.iter msgs
  foldE (l3MsgStep fp (extractComponentName fp)) st items

/-- `C4Level3Generator._parse_components` (lines 81-129): its exceptions
propagate (there is no handler around it). -/
def l3ParseComponents (report : List (String × J)) (st : L3State) :
    Except PyErr L3State :=
  match jFind report "files" with
  | none => .ok st
  | some (J.obj fkvs) => foldE (fun s kv => l3File s kv.1 kv.2) st fkvs
  | some _ => .error .attributeError

/-- `_parse_violations_for_dependencies` message body on a string message
(lines 207-231): the same two-name unpack of `layer_part.split(' on ')`. -/
def l3DepMsgCore (comp : String) (st : L3State) (s : String) :
    Except PyErr L3State :=
  let cs := s.data
  if pyIn dependOnC cs && pyIn lparenC cs then
    let parts := pySplit lparenC cs
    if parts.length ≥ 2 then
      let layer_part := stripChar ')' (lastD parts)
      if pyIn onC layer_part then
        match pySplit onC layer_part with
        | [sl, tl] =>
          let source_layer := String.mk (pyStrip sl)
          let target_layer := String.mk (pyStrip tl)
          let target_parts := pySplit dependOnC cs
          if target_parts.length ≥ 2 then
            let target_class :=
              pyStrip (headD (pySplit lparenC (target_parts.getD 1 [])))
            Except.ok { st with component_dependencies :=
              st.component_dependencies ++
                [⟨comp, simplifyClassName (String.mk target_class),
                  source_layer, target_layer⟩] }
          else Except.ok st
        | _ => Except.error .valueError
      else Except.ok st
    else Except.ok st
  else Except.ok st

def l3DepMsgStep (comp : String) (st : L3State) (m : J) :
    Except PyErr L3State := do
  let msg0 ← J.getD m "message" (J.str "")
  let s ← J.asStr msg0
  l3DepMsgCore comp st s

/-- A fold that keeps the state reached before a raising item (Python
mutates `self` in place, so `except` sees those mutations). -/
def foldKeep {σ α : Type} (f : σ → α → Except PyErr σ) :
    σ → List α → σ × Option PyErr
  | s, [] => (s, none)
  | s, a :: as =>
    match f s a with
    | .error e => (s, some e)
    | .ok s' => foldKeep f s' as

/-- `foldKeep` for step functions that are themselves state-keeping. -/
def foldKeepL {σ α : Type} (f : σ → α → σ × Option PyErr) :
    σ → List α → σ × Option PyErr
  | s, [] => (s, none)
  | s, a :: as =>
    match f s a with
    | (s', none) => foldKeepL f s' as
    | (s', some e) => (s', some e)

/-- `_parse_violations_for_dependencies` file loop body (lines 204-231),
state-keeping because it runs inside the `try` of the filesystem scan. -/
def l3DepFile (st : L3State) (fp : String) (fd : J) : L3State × Option PyErr :=
  match (do
      let msgs ← J.getD fd "messages" (J.arr [])
      J.iter msgs : Except PyErr (List J)) with
  | .error e => (st, some e)
  | .ok items => foldKeep (l3DepMsgStep (extractComponentName fp)) st items

/-- `C4Level3Generator._parse_violations_for_dependencies` (lines 199-231). -/
def l3ParseViolationsForDeps (report : List (String × J)) (st : L3State) :
    L3State × Option PyErr :=
  match jFind report "files" with
  | none => (st, none)
  | some (J.obj fkvs) => foldKeepL (fun s kv => l3DepFile s kv.1 kv.2) st fkvs
  | some _ => (st, some .attributeError)

/-- Coerce to a string or raise `AttributeError` (Python `.replace` on a
non-string pattern). -/
def J.asStrAttr : J → Except PyErr String
  | .str s => .ok s
  | _ => .error .attributeError

/-- Literal `"vendor"`. -/
def vendorC : List Char := ("vendor" : String).data

/-- Literal `"test"`. -/
def testC : List Char := ("test" : String).data

/-- One matched file of a collector scan (lines 160-183): filter on the
absolute path (`vendor` always, case-insensitive `test` only for
`directory` collectors), then record the component under the file stem
with `message`/`line` `None`.  `glob` yields paths relative to the project
directory; `str(php_file)` is the absolute path. -/
def l3ScanFile (checkTest : Bool) (projDir : String) (isFile : String → Bool)
    (layerName : J) (st : L3State) (rel : String) : L3State :=
  let full := projDir ++ "/" ++ rel
  if isFile full && !pyIn vendorC full.data &&
      (!checkTest || !pyIn testC (pyLower full.data)) then
    { st with layer_components :=
        (compAdd st.layer_components layerName (extractComponentName full)
          ⟨rel, none, J.null⟩) }
  else st

/-- Collector loop body (lines 151-183). -/
def l3ScanCollector (projDir : String) (glob : String → List String)
    (isFile : String → Bool) (layerName : J) (st : L3State) (collector : J) :
    Except PyErr L3State := do
  let ctype ← J.get? collector "type"
  let pat ← J.getD collector "value" (J.str "")
  if J.beq ctype (J.str "directory") then
    let pstr ← J.asStrAttr pat
    let dirPattern :=
      String.mk (pyReplace ("/.*" : String).data ("/**/*.php" : String).data
        pstr.data)
    Except.ok ((glob dirPattern).foldl
      (l3ScanFile true projDir isFile layerName) st)
  else if J.beq ctype (J.str "glob") then
    let pstr ← J.asStr pat
    Except.ok ((glob pstr).foldl
      (l3ScanFile false projDir isFile layerName) st)
  else Except.ok st

/-- Layer loop body (lines 148-183): `layer_def['name']` raises `KeyError`
when absent; the collector loop keeps partial state on a raising item. -/
def l3ScanLayer (projDir : String) (glob : String → List String)
    (isFile : String → Bool) (st : L3State) (layerDef : J) :
    L3State × Option PyErr :=
  match (do
      let name ← J.index layerDef "name"
      let cols0 ← J.getD layerDef "collectors" (J.arr [])
      let cols ← J.iter cols0
      Except.ok (name, cols) : Except PyErr (J × List J)) with
  | .error e => (st, some e)
  | .ok (name, cols) =>
    foldKeep (l3ScanCollector projDir glob isFile name) st cols

/-- The whole `try` body of `_parse_components_from_filesystem`
(lines 142-188): scan every configured layer, then harvest dependency
edges from the report. -/
def l3Scan (projDir : String) (glob : String → List String)
    (isFile : String → Bool) (report : List (String × J)) (cfg : J)
    (st : L3State) : L3State × Option PyErr :=
  match (do
      let deptrac ← J.getD cfg "deptrac" (J.obj [])
      let lay0 ← J.getD deptrac "layers" (J.arr [])
      J.iter lay0 : Except PyErr (List J)) with
  | .error e => (st, some e)
  | .ok layers =>
    match foldKeepL (l3ScanLayer projDir glob isFile) st layers with
    | (st1, none) => l3ParseViolationsForDeps report st1
    | (st1, some e) => (st1, some e)

/-- `C4Level3Generator._parse_components_from_filesystem` (lines 131-196):
a missing `deptrac.yaml` (`yamlCfg = none`) falls back to
`_parse_components`; any exception inside the `try` is caught and also
falls back, keeping the partial state; exceptions of the fallback itself
propagate out of the builder. -/
def l3ParseFromFilesystem (yamlCfg : Option J) (projDir : String)
    (glob : String → List String) (isFile : String → Bool)
    (report : List (String × J)) : Except PyErr L3State :=
  match yamlCfg with
  | none => l3ParseComponents report ⟨[], []⟩
  | some cfg =>
    match l3Scan projDir glob isFile report cfg ⟨[], []⟩ with
    | (st, none) => .ok st
    | (st, some _) => l3ParseComponents report st

/-! ## C2, C6: the two-name unpack raises on a second " on " -/

/-- A report whose single message carries a doubled `" on "` inside the
parenthesized suffix.  The level-2 normalizer handles it (`split(" on ", 1)`),
but the level-3 parsers unpack `layer_part.split(' on ')` into exactly two
names and raise `ValueError`. -/
def c2Report : List (String × J) := [("files", J.obj [("Foo.php", J.obj
  [("messages", J.arr [J.obj [("message",
     J.str "Foo must not depend on Bar (A on B on C)")]])])])]

/-- C2 (code bug): parsing the message text raises `ValueError` in both
level-3 parsers, while the level-2 normalizer parses the same message
without raising (source layer `"A"`, target `"B on C"`). -/
theorem l3_message_parse_valueerror :
    l3ParseComponents c2Report ⟨[], []⟩ = Except.error PyErr.valueError ∧
    (l3ParseViolationsForDeps c2Report ⟨[], []⟩).2 = some PyErr.valueError ∧
    (l2Load (J.obj c2Report)).map
        (fun st => st.violations.map fun v => (v.from_layer, v.to_layer)) =
      Except.ok [(J.str "A", J.str "B on C")] :=
  ⟨by rfl, by rfl, by rfl⟩

/-- C6 (code bug): with a missing (`none`) or unusable (`J.null`)
layer/collector configuration, the builder falls back to the
violation-derived strategy as specified — but the fallback itself raises
`ValueError` on `c2Report`, so the exception escapes the builder boundary
and the build does not complete. -/
theorem l3_builder_propagates_fallback_valueerror :
    l3ParseFromFilesystem none "proj" (fun _ => []) (fun _ => false)
        c2Report = Except.error PyErr.valueError ∧
    l3ParseFromFilesystem (some J.null) "proj" (fun _ => []) (fun _ => false)
        c2Report = Except.error PyErr.valueError :=
  ⟨by rfl, by rfl⟩

/-! ## C5: filesystem-scan catalog entries for zero-violation components -/

/-- Association lookup keyed by JSON equality (the outer `defaultdict`). -/
def jbFind {β : Type} : List (J × β) → J → Option β
  | [], _ => none
  | (k', v) :: rest, k => if J.beq k' k then some v else jbFind rest k

/-- Association lookup keyed by string equality (the inner `defaultdict`). -/
def sFind {β : Type} : List (String × β) → String → Option β
  | [], _ => none
  | (k', v) :: rest, k => if k' == k then some v else sFind rest k

mutual

theorem J.beq_refl : ∀ j : J, J.beq j j = true
  | .null => rfl
  | .bool b => by simp [J.beq]
  | .int n => by simp [J.beq]
  | .float q => by simp [J.beq]
  | .str s => by simp [J.beq]
  | .arr xs => by rw [J.beq]; exact J.beqList_refl xs
  | .obj kvs => by rw [J.beq]; exact J.beqKVList_refl kvs

theorem J.beqList_refl : ∀ xs : List J, J.beqList xs xs = true
  | [] => rfl
  | x :: xs => by
    rw [J.beqList, Bool.and_eq_true]
    exact ⟨J.beq_refl x, J.beqList_refl xs⟩

theorem J.beqKVList_refl : ∀ kvs : List (String × J), J.beqKVList kvs kvs = true
  | [] => rfl
  | (k, v) :: rest => by
    rw [J.beqKVList, Bool.and_eq_true, Bool.and_eq_true]
    exact ⟨⟨by simp, J.beq_refl v⟩, J.beqKVList_refl rest⟩

end

/-- `o` is recorded in the catalog under layer `L`, component `C`. -/
def catHasOcc (lc : List (J × List (String × List L3Occ))) (L : J) (C : String)
    (o : L3Occ) : Prop :=
  ∃ comps occs, jbFind lc L = some comps ∧ sFind comps C = some occs ∧ o ∈ occs

theorem sFind_occAppend_self (comps : List (String × List L3Occ)) (C : String)
    (o : L3Occ) : ∃ occs, sFind (occAppend comps C o) C = some occs ∧ o ∈ occs := by
  induction comps with
  | nil => exact ⟨[o], by simp [occAppend, sFind], by simp⟩
  | cons p rest ih =>
    obtain ⟨c', os⟩ := p
    by_cases hc : (c' == C) = true
    · have hc' : c' = C := by simpa using hc
      subst hc'
      exact ⟨os ++ [o], by simp [occAppend, sFind], by simp⟩
    · obtain ⟨occs, h1, h2⟩ := ih
      refine ⟨occs, ?_, h2⟩
      rw [occAppend, if_neg hc, sFind, if_neg hc]
      exact h1

theorem sFind_occAppend_mono {comps : List (String × List L3Occ)}
    {C : String} {occs : List L3Occ} {o : L3Occ} (C' : String) (o' : L3Occ)
    (h1 : sFind comps C = some occs) (h2 : o ∈ occs) :
    ∃ occs', sFind (occAppend comps C' o') C = some occs' ∧ o ∈ occs' := by
  induction comps with
  | nil => cases h1
  | cons p rest ih =>
    obtain ⟨c', os⟩ := p
    by_cases hadd : (c' == C') = true
    · rw [occAppend, if_pos hadd]
      by_cases hq : (c' == C) = true
      · rw [sFind, if_pos hq] at h1
        cases h1
        exact ⟨occs ++ [o'], by rw [sFind, if_pos hq], by simp [h2]⟩
      · rw [sFind, if_neg hq] at h1
        exact ⟨occs, by rw [sFind, if_neg hq]; exact h1, h2⟩
    · rw [occAppend, if_neg hadd]
      by_cases hq : (c' == C) = true
      · rw [sFind, if_pos hq] at h1
        cases h1
        exact ⟨occs, by rw [sFind, if_pos hq], h2⟩
      · rw [sFind, if_neg hq] at h1
        obtain ⟨occs', h1', h2'⟩ := ih h1
        exact ⟨occs', by rw [sFind, if_neg hq]; exact h1', h2'⟩

theorem catHasOcc_compAdd_self (lc : List (J × List (String × List L3Occ)))
    (L : J) (C : String) (o : L3Occ) : catHasOcc (compAdd lc L C o) L C o := by
  induction lc with
  | nil =>
    refine ⟨[(C, [o])], [o], ?_, ?_, by simp⟩
    · simp [compAdd, jbFind, J.beq_refl]
    · simp [sFind]
  | cons p rest ih =>
    obtain ⟨l', comps⟩ := p
    by_cases hl : J.beq l' L = true
    · obtain ⟨occs, h1, h2⟩ := sFind_occAppend_self comps C o
      exact ⟨occAppend comps C o, occs,
        by rw [compAdd, if_pos hl, jbFind, if_pos hl], h1, h2⟩
    · obtain ⟨comps', occs, h1, h2, h3⟩ := ih
      exact ⟨comps', occs,
        by rw [compAdd, if_neg hl, jbFind, if_neg hl]; exact h1, h2, h3⟩

theorem catHasOcc_compAdd_mono {lc : List (J × List (String × List L3Occ))}
    {L : J} {C : String} {o : L3Occ} (L' : J) (C' : String) (o' : L3Occ)
    (h : catHasOcc lc L C o) : catHasOcc (compAdd lc L' C' o') L C o := by
  obtain ⟨comps, occs, h1, h2, h3⟩ := h
  induction lc with
  | nil => cases h1
  | cons p rest ih =>
    obtain ⟨l'', cs⟩ := p
    by_cases hadd : J.beq l'' L' = true
    · rw [compAdd, if_pos hadd]
      by_cases hq : J.beq l'' L = true
      · rw [jbFind, if_pos hq] at h1
        cases h1
        obtain ⟨occs', h2', h3'⟩ := sFind_occAppend_mono C' o' h2 h3
        exact ⟨occAppend comps C' o', occs', by rw [jbFind, if_pos hq], h2', h3'⟩
      · rw [jbFind, if_neg hq] at h1
        exact ⟨comps, occs, by rw [jbFind, if_neg hq]; exact h1, h2, h3⟩
    · rw [compAdd, if_neg hadd]
      by_cases hq : J.beq l'' L = true
      · rw [jbFind, if_pos hq] at h1
        cases h1
        exact ⟨comps, occs, by rw [jbFind, if_pos hq], h2, h3⟩
      · rw [jbFind, if_neg hq] at h1
        obtain ⟨comps', occs', h1', h2', h3'⟩ := ih h1
        exact ⟨comps', occs', by rw [jbFind, if_neg hq]; exact h1', h2', h3'⟩

theorem l3ScanFile_mono {ct : Bool} {pd : String} {isF : String → Bool}
    {LN L : J} {C : String} {o : L3Occ} {st : L3State} (rel : String)
    (h : catHasOcc st.layer_components L C o) :
    catHasOcc (l3ScanFile ct pd isF LN st rel).layer_components L C o := by
  rw [l3ScanFile]
  split
  · exact catHasOcc_compAdd_mono _ _ _ h
  · exact h

theorem l3ScanFiles_fold_mono {ct : Bool} {pd : String} {isF : String → Bool}
    {LN L : J} {C : String} {o : L3Occ} :
    ∀ (files : List String) (st : L3State),
      catHasOcc st.layer_components L C o →
      catHasOcc ((files.foldl (l3ScanFile ct pd isF LN) st)).layer_components
        L C o := by
  intro files
  induction files with
  | nil => intro st h; exact h
  | cons f fs ih =>
    intro st h
    rw [List.foldl_cons]
    exact ih _ (l3ScanFile_mono f h)

theorem l3ScanFiles_fold_self {ct : Bool} {pd : String} {isF : String → Bool}
    {LN : J} {rel : String} :
    ∀ (files : List String) (st : L3State), rel ∈ files →
      (isF (pd ++ "/" ++ rel) && !pyIn vendorC (pd ++ "/" ++ rel).data &&
        (!ct || !pyIn testC (pyLower (pd ++ "/" ++ rel).data))) = true →
      catHasOcc ((files.foldl (l3ScanFile ct pd isF LN) st)).layer_components
        LN (extractComponentName (pd ++ "/" ++ rel)) ⟨rel, none, J.null⟩ := by
  intro files
  induction files with
  | nil => intro st h; cases h
  | cons f fs ih =>
    intro st hmem hflt
    rw [List.foldl_cons]
    rcases List.mem_cons.mp hmem with rfl | hmem'
    · refine l3ScanFiles_fold_mono fs _ ?_
      rw [l3ScanFile, if_pos hflt]
      exact catHasOcc_compAdd_self _ _ _ _
    · exact ih _ hmem' hflt

/-- `l3ScanCollector` preserves recorded occurrences. -/
theorem l3ScanCollector_mono {pd : String} {glob : String → List String}
    {isF : String → Bool} {LN L : J} {C : String} {o : L3Occ}
    {st st' : L3State} {c : J}
    (h : l3ScanCollector pd glob isF LN st c = Except.ok st')
    (hc : catHasOcc st.layer_components L C o) :
    catHasOcc st'.layer_components L C o := by
  unfold l3ScanCollector at h
  obtain ⟨ctype, h1, h⟩ := bindE_ok h
  obtain ⟨pat, h2, h⟩ := bindE_ok h
  revert h
  split
  · intro h
    obtain ⟨pstr, h3, h⟩ := bindE_ok h
    have h' : _ = st' := Except.ok.inj h
    rw [← h']
    exact l3ScanFiles_fold_mono _ _ hc
  · split
    · intro h
      obtain ⟨pstr, h3, h⟩ := bindE_ok h
      have h' : _ = st' := Except.ok.inj h
      rw [← h']
      exact l3ScanFiles_fold_mono _ _ hc
    · intro h
      have h' : st = st' := Except.ok.inj h
      rw [← h']
      exact hc

/-- Processing a `directory` collector records every matched, unfiltered
file under the collector's layer with `message = None`, `line = None`. -/
theorem l3ScanCollector_adds {pd : String} {glob : String → List String}
    {isF : String → Bool} {LN : J} {st st' : L3State} {c : J}
    {pat rel : String}
    (h : l3ScanCollector pd glob isF LN st c = Except.ok st')
    (htype : J.get? c "type" = Except.ok (J.str "directory"))
    (hval : J.getD c "value" (J.str "") = Except.ok (J.str pat))
    (hrel : rel ∈ glob (String.mk (pyReplace ("/.*" : String).data
      ("/**/*.php" : String).data pat.data)))
    (hfile : isF (pd ++ "/" ++ rel) = true)
    (hvendor : pyIn vendorC (pd ++ "/" ++ rel).data = false)
    (htest : pyIn testC (pyLower (pd ++ "/" ++ rel).data) = false) :
    catHasOcc st'.layer_components LN
      (extractComponentName (pd ++ "/" ++ rel)) ⟨rel, none, J.null⟩ := by
  unfold l3ScanCollector at h
  obtain ⟨ctype, h1, h⟩ := bindE_ok h
  rw [htype] at h1
  have h1' : J.str "directory" = ctype := Except.ok.inj h1
  subst h1'
  obtain ⟨pat0, h2, h⟩ := bindE_ok h
  rw [hval] at h2
  have h2' : J.str pat = pat0 := Except.ok.inj h2
  subst h2'
  rw [if_pos (by rw [J.beq]; simp)] at h
  obtain ⟨pstr, h3, h⟩ := bindE_ok h
  have h3' : pat = pstr := Except.ok.inj h3
  subst h3'
  have h' : _ = st' := Except.ok.inj h
  rw [← h']
  refine l3ScanFiles_fold_self _ _ hrel ?_
  simp only [String.data_append, List.append_assoc, List.singleton_append]
    at hvendor htest
  simp [hfile, hvendor, htest]

/-- Processing a `glob` collector records every matched file that passes
the vendor filter (no `test` filter on this branch, lines 172-183) under
the collector's layer with `message = None`, `line = None`. -/
theorem l3ScanCollector_adds_g {pd : String} {glob : String → List String}
    {isF : String → Bool} {LN : J} {st st' : L3State} {c : J}
    {pat rel : String}
    (h : l3ScanCollector pd glob isF LN st c = Except.ok st')
    (htype : J.get? c "type" = Except.ok (J.str "glob"))
    (hval : J.getD c "value" (J.str "") = Except.ok (J.str pat))
    (hrel : rel ∈ glob pat)
    (hfile : isF (pd ++ "/" ++ rel) = true)
    (hvendor : pyIn vendorC (pd ++ "/" ++ rel).data = false) :
    catHasOcc st'.layer_components LN
      (extractComponentName (pd ++ "/" ++ rel)) ⟨rel, none, J.null⟩ := by
  unfold l3ScanCollector at h
  obtain ⟨ctype, h1, h⟩ := bindE_ok h
  rw [htype] at h1
  have h1' : J.str "glob" = ctype := Except.ok.inj h1
  subst h1'
  obtain ⟨pat0, h2, h⟩ := bindE_ok h
  rw [hval] at h2
  have h2' : J.str pat = pat0 := Except.ok.inj h2
  subst h2'
  rw [if_neg (by rw [J.beq]; decide)] at h
  rw [if_pos (by rw [J.beq]; decide)] at h
  obtain ⟨pstr, h3, h⟩ := bindE_ok h
  have h3' : pat = pstr := Except.ok.inj h3
  subst h3'
  have h' : _ = st' := Except.ok.inj h
  rw [← h']
  refine l3ScanFiles_fold_self _ _ hrel ?_
  simp only [String.data_append, List.append_assoc, List.singleton_append]
    at hvendor
  simp [hfile, hvendor]

/-- `rel` is one of the files collector `c` (with pattern `pat`) scans and
keeps, on either collector branch: a `directory` collector matches the
rewritten `/**/*.php` pattern and additionally filters case-insensitive
`test` paths; a `glob` collector matches its pattern directly (lines
155-183). -/
def collectorMatches (glob : String → List String) (pd : String)
    (c : J) (pat rel : String) : Prop :=
  (J.get? c "type" = Except.ok (J.str "directory") ∧
    rel ∈ glob (String.mk (pyReplace ("/.*" : String).data
      ("/**/*.php" : String).data pat.data)) ∧
    pyIn testC (pyLower (pd ++ "/" ++ rel).data) = false) ∨
  (J.get? c "type" = Except.ok (J.str "glob") ∧ rel ∈ glob pat)

theorem foldKeep_mono {σ α : Type} (P : σ → Prop) (f : σ → α → Except PyErr σ)
    (hf : ∀ s a s', f s a = Except.ok s' → P s → P s') :
    ∀ (l : List α) (s : σ), P s → P (foldKeep f s l).1 := by
  intro l
  induction l with
  | nil => intro s h; exact h
  | cons a as ih =>
    intro s h
    rw [foldKeep]
    split
    · exact h
    · rename_i s' hfa
      exact ih s' (hf s a s' hfa h)

theorem foldKeep_reaches {σ α : Type} (P : σ → Prop)
    (f : σ → α → Except PyErr σ) (a0 : α)
    (hmono : ∀ s a s', f s a = Except.ok s' → P s → P s')
    (hcreate : ∀ s s', f s a0 = Except.ok s' → P s') :
    ∀ (l : List α) (s s' : σ), a0 ∈ l → foldKeep f s l = (s', none) → P s' := by
  intro l
  induction l with
  | nil => intro s s' hm; cases hm
  | cons a as ih =>
    intro s s' hm hfold
    rw [foldKeep] at hfold
    cases hfa : f s a with
    | error e => rw [hfa] at hfold; simp at hfold
    | ok s1 =>
      rw [hfa] at hfold
      have hfold' : foldKeep f s1 as = (s', none) := hfold
      rcases List.mem_cons.mp hm with rfl | hm'
      · have hp := hcreate s s1 hfa
        have hmres := foldKeep_mono P f hmono as s1 hp
        rw [hfold'] at hmres
        exact hmres
      · exact ih s1 s' hm' hfold'

theorem foldKeepL_mono {σ α : Type} (P : σ → Prop)
    (f : σ → α → σ × Option PyErr)
    (hf : ∀ s a, P s → P (f s a).1) :
    ∀ (l : List α) (s : σ), P s → P (foldKeepL f s l).1 := by
  intro l
  induction l with
  | nil => intro s h; exact h
  | cons a as ih =>
    intro s h
    rw [foldKeepL]
    cases hfa : f s a with
    | mk s1 e =>
      cases e with
      | none =>
        have := hf s a h
        rw [hfa] at this
        exact ih s1 this
      | some err =>
        have := hf s a h
        rw [hfa] at this
        exact this

theorem foldKeepL_reaches {σ α : Type} (P : σ → Prop)
    (f : σ → α → σ × Option PyErr) (a0 : α)
    (hmono : ∀ s a, P s → P (f s a).1)
    (hcreate : ∀ s, (f s a0).2 = none → P (f s a0).1) :
    ∀ (l : List α) (s s' : σ), a0 ∈ l → foldKeepL f s l = (s', none) → P s' := by
  intro l
  induction l with
  | nil => intro s s' hm; cases hm
  | cons a as ih =>
    intro s s' hm hfold
    rw [foldKeepL] at hfold
    cases hfa : f s a with
    | mk s1 e =>
      rw [hfa] at hfold
      cases e with
      | some err => simp at hfold
      | none =>
        have hfold' : foldKeepL f s1 as = (s', none) := hfold
        rcases List.mem_cons.mp hm with rfl | hm'
        · have hp := hcreate s (by rw [hfa])
          rw [hfa] at hp
          have hmres := foldKeepL_mono P f hmono as s1 hp
          rw [hfold'] at hmres
          exact hmres
        · exact ih s1 s' hm' hfold'

theorem l3ScanLayer_mono {pd : String} {glob : String → List String}
    {isF : String → Bool} {L : J} {C : String} {o : L3Occ}
    (st : L3State) (layerDef : J)
    (h : catHasOcc st.layer_components L C o) :
    catHasOcc (l3ScanLayer pd glob isF st layerDef).1.layer_components L C o := by
  rw [l3ScanLayer]
  split
  · exact h
  · rename_i nc _
    exact foldKeep_mono (fun s => catHasOcc s.layer_components L C o) _
      (fun s a s' hs hp => l3ScanCollector_mono hs hp) _ _ h

theorem l3ScanLayer_creates {pd : String} {glob : String → List String}
    {isF : String → Bool} {layerDef layerName : J} {cols : List J}
    {collector : J} {pat rel : String} (st : L3State)
    (hacc : (do
        let name ← J.index layerDef "name"
        let cols0 ← J.getD layerDef "collectors" (J.arr [])
        let cols ← J.iter cols0
        Except.ok (name, cols) : Except PyErr (J × List J)) =
      Except.ok (layerName, cols))
    (hcol : collector ∈ cols)
    (hval : J.getD collector "value" (J.str "") = Except.ok (J.str pat))
    (hmatch : collectorMatches glob pd collector pat rel)
    (hfile : isF (pd ++ "/" ++ rel) = true)
    (hvendor : pyIn vendorC (pd ++ "/" ++ rel).data = false)
    (hok : (l3ScanLayer pd glob isF st layerDef).2 = none) :
    catHasOcc (l3ScanLayer pd glob isF st layerDef).1.layer_components
      layerName (extractComponentName (pd ++ "/" ++ rel))
      ⟨rel, none, J.null⟩ := by
  rw [l3ScanLayer] at hok ⊢
  rw [hacc] at hok ⊢
  have hok' : (foldKeep (l3ScanCollector pd glob isF layerName) st cols).2 =
      none := hok
  have hpair : foldKeep (l3ScanCollector pd glob isF layerName) st cols =
      ((foldKeep (l3ScanCollector pd glob isF layerName) st cols).1, none) :=
    Prod.ext rfl hok'
  show catHasOcc (foldKeep (l3ScanCollector pd glob isF layerName)
    st cols).1.layer_components layerName
    (extractComponentName (pd ++ "/" ++ rel)) ⟨rel, none, J.null⟩
  refine foldKeep_reaches _ (l3ScanCollector pd glob isF layerName) collector
    (fun s a s' hs hp => l3ScanCollector_mono hs hp)
    (fun s s' hs => ?_) cols st _ hcol hpair
  rcases hmatch with ⟨ht, hr, hte⟩ | ⟨ht, hr⟩
  · exact l3ScanCollector_adds hs ht hval hr hfile hvendor hte
  · exact l3ScanCollector_adds_g hs ht hval hr hfile hvendor

theorem l3DepMsgCore_lc {c : String} {st : L3State} {s : String}
    {st' : L3State} (h : l3DepMsgCore c st s = Except.ok st') :
    st'.layer_components = st.layer_components := by
  unfold l3DepMsgCore at h
  dsimp only at h
  repeat split at h
  all_goals cases h
  all_goals rfl

theorem l3DepMsgStep_lc {c : String} {st : L3State} {m : J} {st' : L3State}
    (h : l3DepMsgStep c st m = Except.ok st') :
    st'.layer_components = st.layer_components := by
  unfold l3DepMsgStep at h
  obtain ⟨msg0, h1, h⟩ := bindE_ok h
  obtain ⟨s, h2, h⟩ := bindE_ok h
  exact l3DepMsgCore_lc h

theorem l3DepFile_lc (st : L3State) (fp : String) (fd : J) :
    (l3DepFile st fp fd).1.layer_components = st.layer_components := by
  rw [l3DepFile]
  split
  · rfl
  · rename_i items _
    exact foldKeep_mono (fun s => s.layer_components = st.layer_components)
      _ (fun s a s' hs hp => (l3DepMsgStep_lc hs).trans hp) _ _ rfl

/-- The dependency-harvest pass never touches the layer catalog. -/
theorem l3DepsPass_lc (report : List (String × J)) (st : L3State) :
    (l3ParseViolationsForDeps report st).1.layer_components =
      st.layer_components := by
  rw [l3ParseViolationsForDeps]
  split
  · rfl
  · rename_i fkvs _
    exact foldKeepL_mono (fun s => s.layer_components = st.layer_components)
      _ (fun (s : L3State) (a : String × J) hp =>
        ((l3DepFile_lc s a.1 a.2).trans hp)) _ _ rfl
  · rfl

/-- C5 (amended): under the filesystem-scan strategy, every file matched by
a collector of either type (`directory` with its rewritten `/**/*.php`
pattern, or `glob` with its pattern directly) that passes the scan's
filters (`vendor` never in the path; case-insensitive `test` additionally
excluded on the `directory` branch) yields a catalog entry for the
collector's layer under the file-stem component, even when the report ties
no violation to it — recorded as one occurrence per matched file carrying
the relative path with null `message` and `line` (no violation ties), not
as an empty occurrence list. -/
theorem l3Scan_records_zero_violation_component
    (projDir : String) (glob : String → List String) (isFile : String → Bool)
    (report : List (String × J)) (cfg : J) (stFinal : L3State)
    (layers : List J) (layerDef layerName : J) (cols : List J)
    (collector : J) (pat rel : String)
    (hscan : l3Scan projDir glob isFile report cfg ⟨[], []⟩ = (stFinal, none))
    (hlayers : (do
        let deptrac ← J.getD cfg "deptrac" (J.obj [])
        let lay0 ← J.getD deptrac "layers" (J.arr [])
        J.iter lay0 : Except PyErr (List J)) = Except.ok layers)
    (hld : layerDef ∈ layers)
    (hacc : (do
        let name ← J.index layerDef "name"
        let cols0 ← J.getD layerDef "collectors" (J.arr [])
        let cols ← J.iter cols0
        Except.ok (name, cols) : Except PyErr (J × List J)) =
      Except.ok (layerName, cols))
    (hcol : collector ∈ cols)
    (hval : J.getD collector "value" (J.str "") = Except.ok (J.str pat))
    (hmatch : collectorMatches glob projDir collector pat rel)
    (hfile : isFile (projDir ++ "/" ++ rel) = true)
    (hvendor : pyIn vendorC (projDir ++ "/" ++ rel).data = false) :
    catHasOcc stFinal.layer_components layerName
      (extractComponentName (projDir ++ "/" ++ rel)) ⟨rel, none, J.null⟩ := by
  rw [l3Scan] at hscan
  rw [hlayers] at hscan
  have hscan' : (match foldKeepL (l3ScanLayer projDir glob isFile)
      ⟨[], []⟩ layers with
    | (st1, none) => l3ParseViolationsForDeps report st1
    | (st1, some e) => (st1, some e)) = (stFinal, none) := hscan
  cases hfl : foldKeepL (l3ScanLayer projDir glob isFile) ⟨[], []⟩ layers with
  | mk st1 e =>
    rw [hfl] at hscan'
    cases e with
    | some err => simp at hscan'
    | none =>
      have hdeps : l3ParseViolationsForDeps report st1 = (stFinal, none) :=
        hscan'
      have hp : catHasOcc st1.layer_components layerName
          (extractComponentName (projDir ++ "/" ++ rel))
          ⟨rel, none, J.null⟩ :=
        foldKeepL_reaches
          (fun s => catHasOcc s.layer_components layerName
            (extractComponentName (projDir ++ "/" ++ rel)) ⟨rel, none, J.null⟩)
          (l3ScanLayer projDir glob isFile) layerDef
          (fun s a hp => l3ScanLayer_mono s a hp)
          (fun s hnone => l3ScanLayer_creates s hacc hcol hval hmatch
            hfile hvendor hnone)
          layers ⟨[], []⟩ st1 hld hfl
      have hlc : stFinal.layer_components = st1.layer_components := by
        have hq := l3DepsPass_lc report st1
        rw [hdeps] at hq
        exact hq
      rw [hlc]
      exact hp

/-- A one-layer, one-directory-collector configuration. -/
def c5Collector : J := J.obj
  [("type", J.str "directory"), ("value", J.str "app/.*")]

def c5LayerDef : J := J.obj
  [("name", J.str "App"), ("collectors", J.arr [c5Collector])]

def c5Cfg : J := J.obj [("deptrac", J.obj [("layers", J.arr [c5LayerDef])])]

/-- A filesystem where the collector pattern matches exactly one file. -/
def c5Glob : String → List String :=
  fun pat => if pat = "app/**/*.php" then ["app/Foo.php"] else []

/-- The catalog the scan builds: component `Foo` appears with ONE
occurrence carrying the file path and null message/line. -/
def c5Catalog : List (J × List (String × List L3Occ)) :=
  [(J.str "App", [("Foo", [⟨"app/Foo.php", none, J.null⟩])])]

/-- C5 is false as stated: the matched zero-violation file appears in the
catalog (as claimed) but with a NONempty occurrence list — one record per
matched file with null metadata — not with an empty occurrence list. -/
theorem l3_catalog_empty_list_counterexample :
    l3ParseFromFilesystem (some c5Cfg) "proj" c5Glob (fun _ => true)
        [("files", J.obj [])] = Except.ok ⟨c5Catalog, []⟩ ∧
    sFind [("Foo", [(⟨"app/Foo.php", none, J.null⟩ : L3Occ)])] "Foo" ≠
      some [] := by
  constructor
  · rfl
  · intro h
    rw [sFind] at h
    simp at h

/-- A one-layer, one-glob-collector configuration matching one file. -/
def c5gCollector : J := J.obj
  [("type", J.str "glob"), ("value", J.str "*.php")]

def c5gLayerDef : J := J.obj
  [("name", J.str "G"), ("collectors", J.arr [c5gCollector])]

def c5gCfg : J := J.obj [("deptrac", J.obj [("layers", J.arr [c5gLayerDef])])]

def c5gGlob : String → List String :=
  fun pat => if pat = "*.php" then ["Bar.php"] else []

def c5gCatalog : List (J × List (String × List L3Occ)) :=
  [(J.str "G", [("Bar", [⟨"Bar.php", none, J.null⟩])])]

/-- Witness for the amended C5 at two concrete one-file configurations,
one per collector branch: a `directory` collector and a `glob` collector
each record their zero-violation matched file as one null-metadata
occurrence. -/
theorem l3Scan_records_zero_violation_component_witness :
    (catHasOcc c5Catalog (J.str "App")
      (extractComponentName ("proj" ++ "/" ++ "app/Foo.php"))
      ⟨"app/Foo.php", none, J.null⟩) ∧
    (catHasOcc c5gCatalog (J.str "G")
      (extractComponentName ("proj" ++ "/" ++ "Bar.php"))
      ⟨"Bar.php", none, J.null⟩) :=
  ⟨l3Scan_records_zero_violation_component "proj" c5Glob (fun _ => true)
    [("files", J.obj [])] c5Cfg ⟨c5Catalog, []⟩ [c5LayerDef] c5LayerDef
    (J.str "App") [c5Collector] c5Collector "app/.*" "app/Foo.php"
    (by rfl) (by rfl) (List.mem_singleton.mpr rfl) (by rfl)
    (List.mem_singleton.mpr rfl) (by rfl)
    (Or.inl ⟨by rfl, by decide, by rfl⟩) (by rfl) (by rfl),
   l3Scan_records_zero_violation_component "proj" c5gGlob (fun _ => true)
    [("files", J.obj [])] c5gCfg ⟨c5gCatalog, []⟩ [c5gLayerDef] c5gLayerDef
    (J.str "G") [c5gCollector] c5gCollector "*.php" "Bar.php"
    (by rfl) (by rfl) (List.mem_singleton.mpr rfl) (by rfl)
    (List.mem_singleton.mpr rfl) (by rfl)
    (Or.inr ⟨by rfl, by decide⟩) (by rfl) (by rfl)⟩

/-! ## Metrics aggregation (scripts/create-master-index.py)

`_extract_v1`, `_extract_legacy`, `read_all_metrics` and the >5% drift
footnote of `generate_master_index`.  Floats are exact rationals. -/

/-- Python `str()` of a float.  Exact for integral floats (`str(1.0) ==
"1.0"`); non-integral rationals render as `num/den`, which — like every
true Python float repr other than `"1.0"` — never strips to `"1.0"`, the
only use this development makes of float strings. -/
def floatRepr (q : Rat) : String :=
  if q.den = 1 then toString q.num ++ ".0" else toString q

/-- Python `str()` of a parsed JSON value.  Lists and dicts render with
their leading delimiter only; Python renders full `[...]`/`\x7b...\x7d`
bodies, and no such string strips to `"1.0"`, the only property used. -/
def pyStr : J → String
  | .null => "None"
  | .bool b => if b then "True" else "False"
  | .int n => toString n
  | .float q => floatRepr q
  | .str s => s
  | .arr _ => "["
  | .obj _ => "\x7b"

def digitsToNat (ds : List Char) : Nat :=
  ds.foldl (fun a c => a * 10 + (c.toNat - 48)) 0

/-- Python `float(s)` on the plain `[+-]digits[.digits]` forms; other
accepted Python spellings (exponents, `inf`, `nan`, underscores) are
treated as parse failures.  No claim depends on string-encoded numbers. -/
def pyParseFloat (s : String) : Option Rat :=
  let cs0 := pyStrip s.data
  let sign : Rat := match cs0 with
    | c :: _ => if c = '-' then -1 else 1
    | [] => 1
  let cs := match cs0 with
    | c :: r => if c = '-' || c = '+' then r else cs0
    | [] => cs0
  let ip := cs.takeWhile Char.isDigit
  let rest := cs.dropWhile Char.isDigit
  match rest with
  | [] => if ip.isEmpty then none else some (sign * digitsToNat ip)
  | c :: r2 =>
    if c = '.' then
      let fp := r2.takeWhile Char.isDigit
      let r3 := r2.dropWhile Char.isDigit
      if r3.isEmpty then
        if ip.isEmpty && fp.isEmpty then none
        else some (sign * ((digitsToNat ip : Rat) +
          (digitsToNat fp : Rat) / ((10 : Rat) ^ fp.length)))
      else none
    else none

/-- Python `int(s)` on `[+-]digits`; other forms raise `ValueError`. -/
def pyParseInt (s : String) : Option Int :=
  let cs0 := pyStrip s.data
  let sign : Int := match cs0 with
    | c :: _ => if c = '-' then -1 else 1
    | [] => 1
  let cs := match cs0 with
    | c :: r => if c = '-' || c = '+' then r else cs0
    | [] => cs0
  if cs.isEmpty || !cs.all Char.isDigit then none
  else some (sign * digitsToNat cs)

/-- `num(x)` of `_extract_v1`/`_extract_legacy`: `float(x or 0)` with every
exception swallowed to `0`. -/
def numF (x : J) : Rat :=
  match J.pyOr x (J.int 0) with
  | .int n => (n : Rat)
  | .float q => q
  | .bool b => if b then 1 else 0
  | .str s => (pyParseFloat s).getD 0
  | _ => 0

/-- Python `int(x)`: truncates floats toward zero, parses integer-literal
strings, and raises on anything else — the token coercions of
`_extract_v1`/`_extract_legacy` are NOT wrapped in `try`. -/
def pyInt : J → Except PyErr Int
  | .int n => .ok n
  | .float q => .ok (if q ≥ 0 then q.floor else q.ceil)
  | .bool b => .ok (if b then 1 else 0)
  | .str s =>
    match pyParseInt s with
    | some n => .ok n
    | none => .error .valueError
  | _ => .error .typeError

/-- One normalized per-stage record (`levels` entries of the v1-like shape
both extractors return). -/
structure V1Level where
  cost : Rat
  time : Rat
  tokens_in : Int
  tokens_out : Int
  model : J

/-- The v1-like shape both extractors return. -/
structure V1Out where
  totals_cost : Rat
  totals_time : Rat
  totals_tokens_in : Int
  totals_tokens_out : Int
  levels : List (String × V1Level)

/-- Level loop body of `_extract_v1` (lines 81-90): non-dict level values
are skipped. -/
def extractV1Level (acc : List (String × V1Level)) (kv : String × J) :
    Except PyErr (List (String × V1Level)) :=
  match kv.2 with
  | J.obj vkvs => do
    let vin ← pyInt (J.pyOr ((jFind vkvs "tokens_in").getD (J.int 0)) (J.int 0))
    let vout ← pyInt (J.pyOr ((jFind vkvs "tokens_out").getD (J.int 0)) (J.int 0))
    Except.ok (acc ++ [(kv.1,
      ⟨numF ((jFind vkvs "cost_usd").getD J.null),
       numF ((jFind vkvs "time_seconds").getD J.null), vin, vout,
       (jFind vkvs "model").getD J.null⟩)])
  | _ => Except.ok acc

/-- The extraction `_extract_v1` performs once its guards pass
(lines 65-91). -/
def extractV1Body (lkvs tkvs : List (String × J)) :
    Except PyErr (Option V1Out) := do
  let tin ← pyInt (J.pyOr ((jFind tkvs "tokens_in").getD (J.int 0)) (J.int 0))
  let tout ← pyInt (J.pyOr ((jFind tkvs "tokens_out").getD (J.int 0)) (J.int 0))
  let lvls ← foldE extractV1Level [] lkvs
  Except.ok (some
    ⟨numF ((jFind tkvs "cost_usd").getD J.null),
     numF ((jFind tkvs "time_seconds").getD J.null), tin, tout, lvls⟩)

/-- `_extract_v1` (lines 52-91): `None` (here `Except.ok none`) routes the
document to legacy extraction in `read_all_metrics`. -/
def extract_v1 (obj : J) : Except PyErr (Option V1Out) :=
  match obj with
  | J.obj kvs =>
    if pyStripS (pyStr ((jFind kvs "version").getD (J.str ""))) ≠ "1.0" then
      Except.ok none
    else
      match (jFind kvs "levels").getD (J.obj []),
          (jFind kvs "totals").getD (J.obj []) with
      | J.obj lkvs, J.obj tkvs => extractV1Body lkvs tkvs
      | _, _ => Except.ok none
  | _ => Except.ok none

/-- `_extract_legacy` (lines 94-126): best-effort key guessing; note the
token coercions can still raise on malformed values. -/
def extract_legacy (obj : J) : Except PyErr (Option V1Out) :=
  match obj with
  | J.obj kvs => do
    let cost0 := (jFind kvs "total_cost").getD J.null
    let cost1 := match cost0 with
      | J.null => J.pyOr ((jFind kvs "cost_usd").getD J.null) (J.float 0)
      | v => v
    let cost := numF cost1
    let tokens_in ← pyInt (J.pyOr ((jFind kvs "input_tokens").getD (J.int 0))
      (J.int 0))
    let tokens_out ← pyInt (J.pyOr ((jFind kvs "output_tokens").getD (J.int 0))
      (J.int 0))
    let time0 := (jFind kvs "total_time").getD J.null
    let time1 := match time0 with
      | J.null => J.pyOr ((jFind kvs "duration_seconds").getD J.null) (J.float 0)
      | v => v
    let time_s := numF time1
    let guess := pyStr (J.pyOr (J.pyOr (J.pyOr ((jFind kvs "level").getD J.null)
      ((jFind kvs "stage").getD J.null)) ((jFind kvs "phase").getD J.null))
      (J.str "legacy"))
    let model := (jFind kvs "model").getD J.null
    Except.ok (some ⟨cost, time_s, tokens_in, tokens_out,
      [(guess, ⟨cost, time_s, tokens_in, tokens_out, model⟩)]⟩)
  | _ => Except.ok none

/-- `parsed = _extract_v1(obj) or _extract_legacy(obj)` of
`read_all_metrics` (line 158): the v1 result dict is always truthy, so
legacy extraction runs exactly when `_extract_v1` returned `None`. -/
def read_one_metrics (obj : J) : Except PyErr (Option V1Out) := do
  match ← extract_v1 obj with
  | some p => Except.ok (some p)
  | none => extract_legacy obj

/-- One accumulated stage slot (`_ensure_stage`, lines 41-49). -/
structure StageFull where
  cost : Rat
  time : Rat
  tokens_in : Int
  tokens_out : Int
  model : J

/-- Accumulators of `read_all_metrics` (lines 142-147). -/
structure MetricsAcc where
  total_cost : Rat
  total_time : Rat
  tin : Int
  tout : Int
  stages : List (String × StageFull)

/-- The merged summary `read_all_metrics` returns (lines 180-186); the
`breakdown` field of the Python dict is a per-stage projection of `stages`
(cost/time/token totals) and carries no further information. -/
structure MetricsSummary where
  total_cost : Rat
  total_tokens : Int
  total_time : Rat
  stages : List (String × StageFull)

/-- `_ensure_stage(stages, key)` (lines 41-49). -/
def ensureStage (stages : List (String × StageFull)) (key : String) :
    List (String × StageFull) :=
  match sFind stages key with
  | some _ => stages
  | none => stages ++ [(key, ⟨0, 0, 0, 0, J.null⟩)]

/-- The in-place stage update of lines 169-175 (first truthy `model` wins). -/
def bumpStage (stages : List (String × StageFull)) (key : String)
    (d : V1Level) : List (String × StageFull) :=
  stages.map fun kv =>
    if kv.1 == key then
      (kv.1, ⟨kv.2.cost + d.cost, kv.2.time + d.time,
        kv.2.tokens_in + d.tokens_in, kv.2.tokens_out + d.tokens_out,
        if !(J.truthy kv.2.model) && J.truthy d.model then d.model
        else kv.2.model⟩)
    else kv

/-- Per-document accumulation of `read_all_metrics` (lines 150-175):
falsy documents and unparsed documents are skipped. -/
def readOneInto (acc : MetricsAcc) (obj : J) : Except PyErr MetricsAcc := do
  if !obj.truthy then Except.ok acc
  else
    match ← read_one_metrics obj with
    | none => Except.ok acc
    | some p =>
      Except.ok
        { total_cost := acc.total_cost + p.totals_cost
          total_time := acc.total_time + p.totals_time
          tin := acc.tin + p.totals_tokens_in
          tout := acc.tout + p.totals_tokens_out
          stages := p.levels.foldl
            (fun ss lv => bumpStage (ensureStage ss lv.1) lv.1 lv.2)
            acc.stages }

/-- `read_all_metrics` over the successfully loaded metrics documents, in
file order (lines 129-186). -/
def readAllMetrics (docs : List J) : Except PyErr MetricsSummary := do
  let acc ← foldE readOneInto ⟨0, 0, 0, 0, []⟩ docs
  Except.ok ⟨acc.total_cost, acc.tin + acc.tout, acc.total_time, acc.stages⟩

/-! ## C3: canonical-schema detection -/

def jIsObjB : J → Bool
  | .obj _ => true
  | _ => false

/-- Modelled from the claim, amended: the version field — coerced through
`str()` and whitespace-stripped — equals `"1.0"`, and the `levels` and
`totals` fields, each defaulting to an EMPTY mapping when absent, are
mappings. -/
def canonicalDetect (obj : J) : Bool :=
  match obj with
  | J.obj kvs =>
    (pyStripS (pyStr ((jFind kvs "version").getD (J.str ""))) == "1.0") &&
    jIsObjB ((jFind kvs "levels").getD (J.obj [])) &&
    jIsObjB ((jFind kvs "totals").getD (J.obj []))
  | _ => false

/-- Once the guards pass, `_extract_v1` never yields `None`. -/
theorem extractV1Body_ne_none (lkvs tkvs : List (String × J)) :
    extractV1Body lkvs tkvs ≠ Except.ok none := by
  intro h
  unfold extractV1Body at h
  obtain ⟨tin, h1, h⟩ := bindE_ok h
  obtain ⟨tout, h2, h⟩ := bindE_ok h
  obtain ⟨lvls, h3, h⟩ := bindE_ok h
  have h' : some _ = (none : Option V1Out) := Except.ok.inj h
  cases h'

/-- C3 (amended): a metrics document is routed to legacy extraction
exactly when it fails the code's canonical detection — `str(version).strip()
== "1.0"` with `levels` and `totals` mappings, where an ABSENT `levels` or
`totals` key counts as an empty mapping. -/
theorem extract_v1_routes_iff (obj : J) :
    (extract_v1 obj = Except.ok none) ↔ canonicalDetect obj = false := by
  cases obj with
  | null => simp [extract_v1, canonicalDetect]
  | bool b => simp [extract_v1, canonicalDetect]
  | int n => simp [extract_v1, canonicalDetect]
  | float q => simp [extract_v1, canonicalDetect]
  | str s => simp [extract_v1, canonicalDetect]
  | arr xs => simp [extract_v1, canonicalDetect]
  | obj kvs =>
    rw [extract_v1, canonicalDetect]
    by_cases hv : pyStripS (pyStr ((jFind kvs "version").getD (J.str ""))) =
        "1.0"
    · rw [if_neg (by simp [hv])]
      cases hl : (jFind kvs "levels").getD (J.obj []) <;>
        cases ht : (jFind kvs "totals").getD (J.obj []) <;>
        simp [hv, jIsObjB, extractV1Body_ne_none]
    · rw [if_pos hv]
      simp [hv]

/-- C3 is false as stated: `{"version": " 1.0"}` has a version that does
not equal the string `"1.0"` exactly and has neither a `levels` nor a
`totals` mapping, yet it is handled by v1.0 extraction (never reaching
legacy extraction). -/
theorem metrics_canonical_detection_counterexample :
    extract_v1 (J.obj [("version", J.str " 1.0")]) =
      Except.ok (some ⟨0, 0, 0, 0, []⟩) ∧
    read_one_metrics (J.obj [("version", J.str " 1.0")]) =
      Except.ok (some ⟨0, 0, 0, 0, []⟩) ∧
    ((" 1.0" : String) = "1.0" → False) ∧
    jFind [("version", J.str " 1.0")] "levels" = none ∧
    jFind [("version", J.str " 1.0")] "totals" = none :=
  ⟨by rfl, by rfl, by decide, by rfl, by rfl⟩

/-! ## C4: the >5% drift footnote -/

/-- The per-stage display keys of the Cost & Usage table
(`display_order`, lines 425-431). -/
def displayOrderKeys : List String :=
  ["level1", "level2", "level3", "level4", "architecture_review"]

/-- `stage_sum_time`: the sum of the displayed per-stage durations
(lines 440-455); stages absent from `display_order` are not counted. -/
def stageSumTime (stages : List (String × StageFull)) : Rat :=
  (displayOrderKeys.filterMap fun k => sFind stages k).foldl
    (fun acc s => acc + s.time) 0

/-- The drift footnote content: the external total, the per-stage sum and
their signed delta, exactly the three values interpolated into the legend
text (lines 473-478). -/
structure Footnote where
  total : Rat
  stageSum : Rat
  delta : Rat

/-- Lines 471-480: `if total_time and abs(total_time - stage_sum_time) /
total_time > 0.05`, emit the footnote; the `try/except pass` around it can
only be reached with `total_time` nonzero, so no division error occurs. -/
def driftFootnote (total_time stage_sum : Rat) : Option Footnote :=
  if total_time ≠ 0 ∧ |total_time - stage_sum| / total_time > 5 / 100 then
    some ⟨total_time, stage_sum, total_time - stage_sum⟩
  else none

/-- The master index's time reporting: the unaltered roll-up total, the
per-stage sum, and the optional drift footnote. -/
def masterIndexTimes (m : MetricsSummary) : Rat × Rat × Option Footnote :=
  (m.total_time, stageSumTime m.stages,
    driftFootnote m.total_time (stageSumTime m.stages))

theorem driftFootnote_pos_iff (t s : Rat) :
    driftFootnote t s = some ⟨t, s, t - s⟩ ↔
      0 < t ∧ |t - s| > 5 / 100 * t := by
  rw [driftFootnote]
  constructor
  · intro h
    split at h
    · rename_i hc
      obtain ⟨hne, hgt⟩ := hc
      have ht : 0 < t := by
        rcases lt_trichotomy t 0 with hlt | heq | hpos
        · exfalso
          have habs : (0 : Rat) ≤ |t - s| := abs_nonneg _
          have : |t - s| / t ≤ 0 := div_nonpos_of_nonneg_of_nonpos habs hlt.le
          linarith
        · exact absurd heq hne
        · exact hpos
      rw [gt_iff_lt, lt_div_iff₀ ht] at hgt
      exact ⟨ht, hgt⟩
    · cases h
  · intro ⟨ht, habs⟩
    rw [if_pos ⟨ne_of_gt ht, by rw [gt_iff_lt, lt_div_iff₀ ht]; exact habs⟩]

theorem driftFootnote_none_iff (t s : Rat) :
    driftFootnote t s = none ↔ ¬(0 < t ∧ |t - s| > 5 / 100 * t) := by
  constructor
  · intro h hc
    rw [(driftFootnote_pos_iff t s).mpr hc] at h
    cases h
  · intro hc
    rw [driftFootnote]
    rw [if_neg ?_]
    intro ⟨hne, hgt⟩
    have ht : 0 < t := by
      rcases lt_trichotomy t 0 with hlt | heq | hpos
      · exfalso
        have habs : (0 : Rat) ≤ |t - s| := abs_nonneg _
        have : |t - s| / t ≤ 0 := div_nonpos_of_nonneg_of_nonpos habs hlt.le
        linarith
      · exact absurd heq hne
      · exact hpos
    rw [gt_iff_lt, lt_div_iff₀ ht] at hgt
    exact hc ⟨ht, hgt⟩

/-- C4 (amended): in the aggregator's output, the drift footnote — carrying
the external roll-up total, the per-stage sum and their signed delta — is
emitted exactly when the external total is POSITIVE and the absolute
difference exceeds 5% of it; otherwise (including nonpositive totals) no
footnote appears; the roll-up total itself is reported unaltered. -/
theorem masterIndex_drift_footnote (docs : List J) (m : MetricsSummary)
    (_h : readAllMetrics docs = Except.ok m) :
    (masterIndexTimes m).1 = m.total_time ∧
    ((masterIndexTimes m).2.2 = some ⟨m.total_time, stageSumTime m.stages,
        m.total_time - stageSumTime m.stages⟩ ↔
      (0 < m.total_time ∧ |m.total_time - stageSumTime m.stages| >
        5 / 100 * m.total_time)) ∧
    ((masterIndexTimes m).2.2 = none ↔
      ¬(0 < m.total_time ∧ |m.total_time - stageSumTime m.stages| >
        5 / 100 * m.total_time)) :=
  ⟨rfl, driftFootnote_pos_iff _ _, driftFootnote_none_iff _ _⟩

/-- A legacy metrics document recording a negative duration. -/
def c4Doc : J :=
  J.obj [("total_cost", J.float 0), ("duration_seconds", J.float (-10))]

/-- The summary the aggregator builds from `c4Doc` alone. -/
def c4Sum : MetricsSummary :=
  ⟨0, 0, -10, [("legacy", ⟨0, -10, 0, 0, J.null⟩)]⟩

/-- C4 is false as stated: with an external total of `-10` seconds (an
adversarial but accepted input) and a per-stage display sum of `0`, the
external total is nonzero and the absolute difference (10) exceeds 5% of
the external total under either reading (signed `-0.5` or absolute `0.5`),
yet the code emits no footnote — `abs(delta)/total_time` is negative for
negative totals. -/
theorem masterIndex_drift_counterexample :
    readAllMetrics [c4Doc] = Except.ok c4Sum ∧
    (masterIndexTimes c4Sum).2.2 = none ∧
    c4Sum.total_time ≠ 0 ∧
    |c4Sum.total_time - stageSumTime c4Sum.stages| >
      5 / 100 * |c4Sum.total_time| := by
  have hs : stageSumTime c4Sum.stages = 0 := by
    simp [c4Sum, stageSumTime, displayOrderKeys, sFind]
  refine ⟨?_, ?_, by decide, ?_⟩
  · have h1 : read_one_metrics c4Doc = Except.ok
        (some ⟨0, -10, 0, 0, [("legacy", ⟨0, -10, 0, 0, J.null⟩)]⟩) := by rfl
    unfold readAllMetrics foldE readOneInto
    simp only [bind, Except.bind, h1, J.truthy]
    norm_num [c4Sum, c4Doc, ensureStage, bumpStage, sFind, foldE, J.truthy]
  · show driftFootnote c4Sum.total_time (stageSumTime c4Sum.stages) = none
    rw [hs]
    show driftFootnote (-10) 0 = none
    rw [driftFootnote, if_neg]
    intro hcond
    obtain ⟨h1, h2⟩ := hcond
    norm_num at h2
  · rw [hs]
    show (5 / 100 : Rat) * |(-10 : Rat)| < |(-10 : Rat) - 0|
    norm_num

def c4wDocs : List J :=
  [J.obj [("total_cost", J.float 1), ("duration_seconds", J.float 100)]]

def c4wSum : MetricsSummary :=
  ⟨1, 0, 100, [("legacy", ⟨1, 100, 0, 0, J.null⟩)]⟩

/-- Witness for the amended C4: one legacy stage outside the display order
produces a 100% drift; the footnote carries total `100`, stage sum `0` and
delta `+100`. -/
theorem masterIndex_drift_footnote_witness :
    (masterIndexTimes c4wSum).1 = c4wSum.total_time ∧
    ((masterIndexTimes c4wSum).2.2 = some ⟨c4wSum.total_time,
        stageSumTime c4wSum.stages,
        c4wSum.total_time - stageSumTime c4wSum.stages⟩ ↔
      (0 < c4wSum.total_time ∧
        |c4wSum.total_time - stageSumTime c4wSum.stages| >
        5 / 100 * c4wSum.total_time)) ∧
    ((masterIndexTimes c4wSum).2.2 = none ↔
      ¬(0 < c4wSum.total_time ∧
        |c4wSum.total_time - stageSumTime c4wSum.stages| >
        5 / 100 * c4wSum.total_time)) :=
  masterIndex_drift_footnote c4wDocs c4wSum (by
    have h1 : read_one_metrics (J.obj [("total_cost", J.float 1),
        ("duration_seconds", J.float 100)]) = Except.ok
        (some ⟨1, 100, 0, 0, [("legacy", ⟨1, 100, 0, 0, J.null⟩)]⟩) := by rfl
    norm_num [c4wDocs, readAllMetrics, foldE, readOneInto, bind, Except.bind,
      h1, J.truthy, ensureStage, bumpStage, sFind, c4wSum])

/-! ## Mermaid id sanitization and registry (scripts/flowscribe_utils.py)

`mermaid_safe_id` and `MermaidIdRegistry.uid`, including the real MD5 of
`hashlib` (word arithmetic as `Nat` reduced mod `2^32`), since the
registry's collision behaviour hinges on the truncated digest. -/

/-- Truncate to a 32-bit word. -/
def w32 (n : Nat) : Nat := n % 4294967296

/-- 32-bit complement (operands are < `2^32`). -/
def wnot (x : Nat) : Nat := 4294967295 ^^^ x

/-- 32-bit left rotation. -/
def rotl (x s : Nat) : Nat := w32 (x <<< s) ||| (x >>> (32 - s))

/-- The 64 MD5 sine-derived constants (RFC 1321). -/
def md5K : List Nat :=
  [0xd76aa478, 0xe8c7b756, 0x242070db, 0xc1bdceee,
   0xf57c0faf, 0x4787c62a, 0xa8304613, 0xfd469501,
   0x698098d8, 0x8b44f7af, 0xffff5bb1, 0x895cd7be,
   0x6b901122, 0xfd987193, 0xa679438e, 0x49b40821,
   0xf61e2562, 0xc040b340, 0x265e5a51, 0xe9b6c7aa,
   0xd62f105d, 0x02441453, 0xd8a1e681, 0xe7d3fbc8,
   0x21e1cde6, 0xc33707d6, 0xf4d50d87, 0x455a14ed,
   0xa9e3e905, 0xfcefa3f8, 0x676f02d9, 0x8d2a4c8a,
   0xfffa3942, 0x8771f681, 0x6d9d6122, 0xfde5380c,
   0xa4beea44, 0x4bdecfa9, 0xf6bb4b60, 0xbebfbc70,
   0x289b7ec6, 0xeaa127fa, 0xd4ef3085, 0x04881d05,
   0xd9d4d039, 0xe6db99e5, 0x1fa27cf8, 0xc4ac5665,
   0xf4292244, 0x432aff97, 0xab9423a7, 0xfc93a039,
   0x655b59c3, 0x8f0ccc92, 0xffeff47d, 0x85845dd1,
   0x6fa87e4f, 0xfe2ce6e0, 0xa3014314, 0x4e0811a1,
   0xf7537e82, 0xbd3af235, 0x2ad7d2bb, 0xeb86d391]

/-- The 64 per-round shift amounts. -/
def md5S : List Nat :=
  [7, 12, 17, 22, 7, 12, 17, 22, 7, 12, 17, 22, 7, 12, 17, 22,
   5, 9, 14, 20, 5, 9, 14, 20, 5, 9, 14, 20, 5, 9, 14, 20,
   4, 11, 16, 23, 4, 11, 16, 23, 4, 11, 16, 23, 4, 11, 16, 23,
   6, 10, 15, 21, 6, 10, 15, 21, 6, 10, 15, 21, 6, 10, 15, 21]

/-- One MD5 round on state `(A, B, C, D)`. -/
def md5Round (M : List Nat) (st : Nat × Nat × Nat × Nat) (i : Nat) :
    Nat × Nat × Nat × Nat :=
  let A := st.1
  let B := st.2.1
  let C := st.2.2.1
  let D := st.2.2.2
  let Fg : Nat × Nat :=
    if i < 16 then ((B &&& C) ||| (wnot B &&& D), i)
    else if i < 32 then ((D &&& B) ||| (wnot D &&& C), (5 * i + 1) % 16)
    else if i < 48 then (B ^^^ C ^^^ D, (3 * i + 5) % 16)
    else (C ^^^ (B ||| wnot D), (7 * i) % 16)
  let F2 := w32 (Fg.1 + A + md5K.getD i 0 + M.getD Fg.2 0)
  (D, w32 (B + rotl F2 (md5S.getD i 0)), B, C)

/-- Process one 64-byte chunk. -/
def md5Chunk (h : Nat × Nat × Nat × Nat) (chunk : List Nat) :
    Nat × Nat × Nat × Nat :=
  let M := (List.range 16).map fun j =>
    chunk.getD (4 * j) 0 + 256 * chunk.getD (4 * j + 1) 0 +
    65536 * chunk.getD (4 * j + 2) 0 + 16777216 * chunk.getD (4 * j + 3) 0
  let r := (List.range 64).foldl (md5Round M) h
  (w32 (h.1 + r.1), w32 (h.2.1 + r.2.1), w32 (h.2.2.1 + r.2.2.1),
    w32 (h.2.2.2 + r.2.2.2))

/-- MD5 padding: `0x80`, zeros to 56 mod 64, 8-byte little-endian bit
length. -/
def md5Pad (msg : List Nat) : List Nat :=
  msg ++ [128] ++ List.replicate ((119 - msg.length % 64) % 64) 0 ++
    ((List.range 8).map fun j => (8 * msg.length >>> (8 * j)) % 256)

/-- Split into 64-byte chunks (fueled; fuel ≥ byte count suffices). -/
def toChunksAux : Nat → List Nat → List (List Nat)
  | 0, _ => []
  | _ + 1, [] => []
  | n + 1, l => l.take 64 :: toChunksAux n (l.drop 64)

def toChunks (l : List Nat) : List (List Nat) := toChunksAux l.length l

/-- The 16 MD5 digest bytes of a byte string. -/
def md5Bytes (msg : List Nat) : List Nat :=
  let r := (toChunks (md5Pad msg)).foldl md5Chunk
    (0x67452301, 0xefcdab89, 0x98badcfe, 0x10325476)
  ([r.1, r.2.1, r.2.2.1, r.2.2.2].map fun w =>
    [w % 256, (w >>> 8) % 256, (w >>> 16) % 256, (w >>> 24) % 256]).flatten

def hexDigit (n : Nat) : Char :=
  if n < 10 then Char.ofNat (48 + n) else Char.ofNat (87 + n)

def byteHex (b : Nat) : List Char := [hexDigit (b / 16), hexDigit (b % 16)]

/-- UTF-8 encoding of one character. -/
def charUtf8 (c : Char) : List Nat :=
  let n := c.toNat
  if n < 128 then [n]
  else if n < 2048 then [192 + n / 64, 128 + n % 64]
  else if n < 65536 then
    [224 + n / 4096, 128 + (n / 64) % 64, 128 + n % 64]
  else
    [240 + n / 262144, 128 + (n / 4096) % 64, 128 + (n / 64) % 64,
     128 + n % 64]

def utf8Bytes (s : String) : List Nat := (s.data.map charUtf8).flatten

/-- `hashlib.md5(str(name).encode('utf-8')).hexdigest()`. -/
def md5hex (s : String) : String :=
  String.mk ((md5Bytes (utf8Bytes s)).map byteHex).flatten

/-- `mermaid_safe_id`'s character class `[A-Za-z0-9_]`. -/
def safeChar (c : Char) : Char :=
  if ('A' ≤ c && c ≤ 'Z') || ('a' ≤ c && c ≤ 'z') ||
      ('0' ≤ c && c ≤ '9') || c = '_' then c
  else '_'

/-- `mermaid_safe_id` (flowscribe_utils.py, lines 322-331). -/
def mermaid_safe_id (name : String) : String :=
  let base := name.data.map safeChar
  if base.isEmpty || (base.headD 'x').isDigit then
    String.mk ('n' :: '_' :: base)
  else String.mk base

/-- `MermaidIdRegistry.uid` (lines 333-349): the state is the `_used` set
(list membership only); a base-id collision appends `_` plus the first six
hex digits of the raw name's MD5, and the returned id is added to the set
unconditionally. -/
def MermaidIdRegistry.uid (used : List String) (name : String) :
    String × List String :=
  if used.contains (mermaid_safe_id name) then
    (mermaid_safe_id name ++ "_" ++ String.mk ((md5hex name).data.take 6),
      (mermaid_safe_id name ++ "_" ++
        String.mk ((md5hex name).data.take 6)) :: used)
  else (mermaid_safe_id name, mermaid_safe_id name :: used)

/-- The `_used` set after a sequence of `uid` calls. -/
def sessionUsed (used : List String) : List String → List String
  | [] => used
  | n :: ns => sessionUsed (MermaidIdRegistry.uid used n).2 ns

/-- The ids a fresh registry hands out for `names`, in order. -/
def runSessionAux (used : List String) : List String → List String
  | [] => []
  | n :: ns =>
    (MermaidIdRegistry.uid used n).1 ::
      runSessionAux (MermaidIdRegistry.uid used n).2 ns

def runSession (names : List String) : List String := runSessionAux [] names

theorem contains_of_mem {l : List String} {x : String} (h : x ∈ l) :
    l.contains x = true :=
  List.elem_eq_true_of_mem h

theorem uid_fst_pos (used : List String) (name : String)
    (h : used.contains (mermaid_safe_id name) = true) :
    (MermaidIdRegistry.uid used name).1 =
      mermaid_safe_id name ++ "_" ++ String.mk ((md5hex name).data.take 6) := by
  unfold MermaidIdRegistry.uid
  rw [if_pos h]

theorem uid_fst_neg (used : List String) (name : String)
    (h : ¬ used.contains (mermaid_safe_id name) = true) :
    (MermaidIdRegistry.uid used name).1 = mermaid_safe_id name := by
  unfold MermaidIdRegistry.uid
  rw [if_neg h]

theorem uid_snd_neg (used : List String) (name : String)
    (h : ¬ used.contains (mermaid_safe_id name) = true) :
    (MermaidIdRegistry.uid used name).2 = mermaid_safe_id name :: used := by
  unfold MermaidIdRegistry.uid
  rw [if_neg h]

theorem uid_snd_mem {x : String} (used : List String) (name : String)
    (h : x ∈ used) : x ∈ (MermaidIdRegistry.uid used name).2 := by
  unfold MermaidIdRegistry.uid
  split
  · exact List.mem_cons_of_mem _ h
  · exact List.mem_cons_of_mem _ h

theorem sessionUsed_mem {x : String} :
    ∀ (mid : List String) (used : List String), x ∈ used →
      x ∈ sessionUsed used mid := by
  intro mid
  induction mid with
  | nil => intro used h; exact h
  | cons n ns ih =>
    intro used h
    rw [sessionUsed]
    exact ih _ (uid_snd_mem _ _ h)

theorem append_hash_ne_base (S h : String) : S ++ "_" ++ h ≠ S := by
  intro he
  have h2 := congrArg (fun t => t.data.length) he
  simp only [String.data_append, List.length_append] at h2
  simp at h2
  omega

/-- C7 (amended): within a single render session, two raw names that
sanitize to the same base id receive distinct node ids PROVIDED their
truncated (six hex chars) MD5 digests differ — the second and subsequent
collisions carry the digest suffix.  When both the sanitized form and the
truncated digest coincide, the registry returns the same id twice (see the
counterexample). -/
theorem mermaid_uid_distinct (used mid : List String) (a b : String)
    (hsan : mermaid_safe_id a = mermaid_safe_id b)
    (hhash : (md5hex a).data.take 6 ≠ (md5hex b).data.take 6) :
    (MermaidIdRegistry.uid used a).1 ≠
      (MermaidIdRegistry.uid
        (sessionUsed (MermaidIdRegistry.uid used a).2 mid) b).1 := by
  by_cases hc : used.contains (mermaid_safe_id a) = true
  · have ha1 := uid_fst_pos used a hc
    by_cases hcb : (sessionUsed (MermaidIdRegistry.uid used a).2
        mid).contains (mermaid_safe_id b) = true
    · have hb1 := uid_fst_pos (sessionUsed (MermaidIdRegistry.uid used a).2
        mid) b hcb
      rw [ha1, hb1, ← hsan]
      intro he
      have hd := congrArg String.data he
      simp only [String.data_append, List.append_assoc] at hd
      have h1 := List.append_cancel_left hd
      have h2 := List.append_cancel_left h1
      exact hhash h2
    · have hb1 := uid_fst_neg (sessionUsed (MermaidIdRegistry.uid used a).2
        mid) b hcb
      rw [ha1, hb1, ← hsan]
      exact append_hash_ne_base _ _
  · have ha1 := uid_fst_neg used a hc
    have ha2 := uid_snd_neg used a hc
    have hcb : (sessionUsed (MermaidIdRegistry.uid used a).2
        mid).contains (mermaid_safe_id b) = true := by
      rw [← hsan]
      refine contains_of_mem (sessionUsed_mem mid _ ?_)
      rw [ha2]
      exact List.mem_cons_self _ _
    have hb1 := uid_fst_pos (sessionUsed (MermaidIdRegistry.uid used a).2
      mid) b hcb
    rw [ha1, hb1, ← hsan]
    intro he
    exact append_hash_ne_base _ _ he.symm

/-- C7 is false as stated: the distinct raw names `"n&99262"` and
`"n-99262"` sanitize to the same base id AND share the first six hex
digits of their MD5 digests (`5a1f7c`), so once `"n_99262"` is taken the
registry hands both the SAME id `"n_99262_5a1f7c"` in one session. -/
theorem mermaid_uid_collision_counterexample :
    runSession ["n_99262", "n&99262", "n-99262"] =
      ["n_99262", "n_99262_5a1f7c", "n_99262_5a1f7c"] ∧
    (("n&99262" : String) = "n-99262" → False) ∧
    mermaid_safe_id "n&99262" = mermaid_safe_id "n-99262" := by
  refine ⟨?_, by decide, by rfl⟩
  set_option maxRecDepth 100000 in decide

/-- Witness for the amended C7: names `"a!"` and `"a?"` sanitize alike but
have different digest prefixes, so their session ids differ. -/
theorem mermaid_uid_distinct_witness :
    (MermaidIdRegistry.uid [] "a!").1 ≠
      (MermaidIdRegistry.uid
        (sessionUsed (MermaidIdRegistry.uid [] "a!").2 []) "a?").1 :=
  mermaid_uid_distinct [] [] "a!" "a?" (by rfl)
    (by set_option maxRecDepth 100000 in decide)

/-! ## C8: `C4Level3Generator.generate_layer_component_diagram` (lines 247-322)

The diagram text is assembled from the layer catalog and
`component_dependencies`.  Every loop ranges over lists or
insertion-ordered dicts except one: `external_layers` is a Python `set`
of strings (lines 298-305), whose iteration order depends on the
process-level string-hash seed.  The embedding therefore takes the order
in which that set is enumerated as an explicit parameter `extOrder`; a
valid enumeration is any duplicate-free list with the set's members. -/

/-- `comp_name.replace(' ', '_').replace('-', '_')` (lines 271, 284-285,
310). -/
def mermaidNodeId (s : String) : String :=
  String.mk (pyReplace ['-'] ['_'] (pyReplace [' '] ['_'] s.data))

/-- `ext_layer.replace(' ', '_')` (lines 304, 311). -/
def mermaidExtId (s : String) : String :=
  String.mk (pyReplace [' '] ['_'] s.data)

/-- `defaultdict(list)` keyed by category: first touch of a key appends
it at the end, later touches extend its list in place (lines 326-360). -/
def catPut : List (String × List String) → String → String →
    List (String × List String)
  | [], k, v => [(k, [v])]
  | (k', vs) :: rest, k, v =>
    if k' == k then (k', vs ++ [v]) :: rest
    else (k', vs) :: catPut rest k v

/-- Category of a Presentation-layer component (lines 329-338). -/
def presCat (c : String) : String :=
  if pyIn ("Handler" : String).data c.data then "Request Handlers"
  else if pyIn ("Controller" : String).data c.data then "Controllers"
  else if pyIn ("Form" : String).data c.data then "Forms"
  else "Other UI Components"

/-- Category of an Infrastructure-layer component (lines 340-353). -/
def infraCat (c : String) : String :=
  if pyIn ("DOI" : String).data c.data || pyIn ("Doi" : String).data c.data
    then "DOI Services"
  else if pyIn ("ORCID" : String).data c.data ||
      pyIn ("Orcid" : String).data c.data then "ORCID Integration"
  else if pyIn ("Mail" : String).data c.data ||
      pyIn ("Email" : String).data c.data ||
      pyIn ("Notif" : String).data c.data then "Notification Services"
  else if pyIn ("Payment" : String).data c.data then "Payment Services"
  else if pyIn ("File" : String).data c.data then "File Management"
  else "Other Infrastructure"

/-- Category of a Persistence-layer component (lines 355-360). -/
def persCat (c : String) : String :=
  if pyIn ("DAO" : String).data c.data then "Data Access Objects"
  else "Repository Components"

/-- `C4Level3Generator._categorize_components` (lines 324-368), applied to
`components.keys()` in insertion order. -/
def categorizeComponents (layer : String) (compKeys : List String) :
    List (String × List String) :=
  if layer == "Presentation" then
    compKeys.foldl (fun cs c => catPut cs (presCat c) c) []
  else if layer == "Infrastructure" then
    compKeys.foldl (fun cs c => catPut cs (infraCat c) c) []
  else if layer == "Persistence" then
    compKeys.foldl (fun cs c => catPut cs (persCat c) c) []
  else if layer == "Domain" then [("Domain Entities", compKeys)]
  else [("Components", compKeys)]

/-- Lines of the per-category subgraphs (lines 266-273): empty categories
are skipped (`if comps:`). -/
def l3CatLines (cats : List (String × List String)) : List String :=
  (cats.map (fun cv =>
    if cv.2.isEmpty then [] else
      ("        subgraph \"" ++ cv.1 ++ "\"") ::
        (cv.2.map (fun c =>
          "            " ++ mermaidNodeId c ++ "[" ++ c ++ "]") ++
          ["        end"]))).flatten

/-- Intra-layer dependency edge lines (lines 281-286). -/
def internalDepLines (deps : List L3Dep) (layer : String) : List String :=
  (deps.filter (fun d => d.from_layer == layer && d.to_layer == layer)).map
    (fun d => "    " ++ mermaidNodeId d.from_ ++ " --> " ++
      mermaidNodeId d.to_)

/-- Members of the `external_layers` set (lines 298-301), with the
duplicates the `add` calls would collapse still present; `List.dedup` of
this list is the set's contents. -/
def externalLayers (deps : List L3Dep) (layer : String) : List String :=
  (deps.filter (fun d => d.from_layer == layer && d.to_layer != layer)).map
    (fun d => d.to_layer)

/-- Cross-layer dependency edge lines (lines 307-312): these iterate the
`component_dependencies` LIST, so their order is stable. -/
def externalDepLines (deps : List L3Dep) (layer : String) : List String :=
  (deps.filter (fun d => d.from_layer == layer && d.to_layer != layer)).map
    (fun d => "    " ++ mermaidNodeId d.from_ ++ " -.-> " ++
      mermaidExtId d.to_layer)

/-- Truncation of a dependency section to `limit` lines plus an overflow
comment (lines 288-292 with limit 20, lines 314-318 with limit 10). -/
def depSection (ds : List String) (limit : Nat) (noun : String) :
    List String :=
  if ds.isEmpty then []
  else ds.take limit ++
    (if limit < ds.length then
      ["    %% ... and " ++ toString (ds.length - limit) ++ " more " ++ noun]
    else [])

/-- The list whose `"\n".join` is the return value of
`generate_layer_component_diagram` (lines 247-322); `extOrder` is the
order in which the `external_layers` set is iterated at line 303. -/
def l3DiagramLines (cat : List (J × List (String × List L3Occ)))
    (deps : List L3Dep) (layer : String) (extOrder : List String) :
    List String :=
  match jbFind cat (J.str layer) with
  | none => ["*Layer " ++ String.mk [Char.ofNat 39] ++ layer ++
      String.mk [Char.ofNat 39] ++ " not found in analysis*"]
  | some comps =>
    if comps.isEmpty then
      ["*No components found in " ++ layer ++ " layer*"]
    else
      ["```mermaid", "graph TB", "    subgraph \"" ++ layer ++ " Layer\""] ++
      l3CatLines (categorizeComponents layer (comps.map Prod.fst)) ++
      ["    end", "", "    %% Component Dependencies"] ++
      depSection (internalDepLines deps layer) 20 "internal dependencies" ++
      ["", "    %% External Layer Dependencies"] ++
      extOrder.map (fun e => "    " ++ mermaidExtId e ++ "[" ++ e ++
        " Layer]") ++
      depSection (externalDepLines deps layer) 10 "external dependencies" ++
      ["```"]

/-- `generate_layer_component_diagram`: the early returns at lines 251 and
256 coincide with the `join` of the corresponding singleton line lists. -/
def generate_layer_component_diagram
    (cat : List (J × List (String × List L3Occ))) (deps : List L3Dep)
    (layer : String) (extOrder : List String) : String :=
  String.intercalate "\n" (l3DiagramLines cat deps layer extOrder)

def c8Cat : List (J × List (String × List L3Occ)) :=
  [(J.str "L", [("Comp", [⟨"a/Comp.php", none, J.null⟩])])]

def c8Deps : List L3Dep :=
  [⟨"Comp", "X", "L", "A"⟩, ⟨"Comp", "Y", "L", "B"⟩]

/-- C8 is false as stated: with two external target layers, the orders
`["A", "B"]` and `["B", "A"]` are both valid enumerations of the
`external_layers` set (which depends on the process hash seed), and the
rendered diagrams differ byte-wise. -/
theorem l3_diagram_set_order_counterexample :
    (["A", "B"] : List String).Perm ((externalLayers c8Deps "L").dedup) ∧
    (["B", "A"] : List String).Perm ((externalLayers c8Deps "L").dedup) ∧
    generate_layer_component_diagram c8Cat c8Deps "L" ["A", "B"] ≠
      generate_layer_component_diagram c8Cat c8Deps "L" ["B", "A"] := by
  refine ⟨by decide, by decide, ?_⟩
  set_option maxRecDepth 100000 in decide

/-- C8 (amended): the renderer is deterministic up to the iteration order
of the `external_layers` set; for any two duplicate-free enumerations of
that set the outputs agree as multisets of lines (only the block of
external-layer node declarations is permuted), and every other part of
the diagram is identical. -/
theorem l3_diagram_external_order_perm
    (cat : List (J × List (String × List L3Occ))) (deps : List L3Dep)
    (layer : String) (o1 o2 : List String)
    (h1 : o1.Perm ((externalLayers deps layer).dedup))
    (h2 : o2.Perm ((externalLayers deps layer).dedup)) :
    (l3DiagramLines cat deps layer o1).Perm
      (l3DiagramLines cat deps layer o2) := by
  have hp : o1.Perm o2 := h1.trans h2.symm
  unfold l3DiagramLines
  cases hf : jbFind cat (J.str layer) with
  | none => exact List.Perm.refl _
  | some comps =>
    dsimp only
    by_cases hemp : comps.isEmpty = true
    · rw [if_pos hemp, if_pos hemp]
    · rw [if_neg hemp, if_neg hemp]
      exact (((List.Perm.refl _).append (hp.map _)).append_right _).append_right _

/-- Witness for the amended C8 at the counterexample's catalog and
dependency list: the two enumerations yield permuted line lists. -/
theorem l3_diagram_external_order_perm_witness :
    (l3DiagramLines c8Cat c8Deps "L" ["A", "B"]).Perm
      (l3DiagramLines c8Cat c8Deps "L" ["B", "A"]) :=
  l3_diagram_external_order_perm c8Cat c8Deps "L" ["A", "B"] ["B", "A"]
    (by decide) (by decide)

/-! ## C10: the directive rewrite in `normalize_mermaid_block`
(scripts/sanitize_output_files.py line 116)

`re.sub(r'^\s*graph\s+(TB|LR|RL|BT)\b', r'flowchart \1', block, flags=re.M)`
is a left-to-right scan over the block: at every line start (position 0 or
just after a newline) the pattern is tried; `\s*` and `\s+` are greedy runs
of whitespace (backtracking never helps, because the following pattern
characters are not whitespace, so the maximal runs are the only
candidates), the four direction tokens are pairwise prefix-free, and `\b`
demands that the next character is not a word character (or that the input
ends).  A match — including any leading whitespace it swallowed — is
replaced by `flowchart ` plus the direction, and scanning resumes after
the match.  `\s` and `\w` are modelled over their ASCII members. -/

/-- `\w` (ASCII members). -/
def reWord (c : Char) : Bool := c.isAlphanum || c == '_'

/-- `\b` right after one of the two-character direction tokens. -/
def reBoundary : List Char → Bool
  | [] => true
  | c :: _ => !(reWord c)

/-- One alternative of `(TB|LR|RL|BT)\b` at the head of `r`. -/
def dirTok (d r : List Char) : Bool := d.isPrefixOf r && reBoundary (r.drop 2)

/-- The alternation `(TB|LR|RL|BT)\b`, tried in the pattern's order;
returns the captured direction and the rest of the input. -/
def dirAlt (r : List Char) : Option (List Char × List Char) :=
  if dirTok ("TB" : String).data r then some (("TB" : String).data, r.drop 2)
  else if dirTok ("LR" : String).data r then some (("LR" : String).data, r.drop 2)
  else if dirTok ("RL" : String).data r then some (("RL" : String).data, r.drop 2)
  else if dirTok ("BT" : String).data r then some (("BT" : String).data, r.drop 2)
  else none

/-- `\s*graph\s+(TB|LR|RL|BT)\b` at the start of `s` (which the scanner
only calls at line starts). -/
def matchDirective (s : List Char) : Option (List Char × List Char) :=
  if ("graph" : String).data.isPrefixOf (s.dropWhile pyWs) then
    if (((s.dropWhile pyWs).drop 5).takeWhile pyWs).isEmpty then none
    else dirAlt (((s.dropWhile pyWs).drop 5).dropWhile pyWs)
  else none

/-- The `re.sub` scan: `true` means the current position is a line start
(`^` under `re.M` matches).  Fuel is consumed one unit per step; a match
consumes at least eight characters, so fuel equal to the input length is
always sufficient (`dirScan_fuel`). -/
def dirScan : Nat → Bool → List Char → List Char
  | 0, _, s => s
  | _ + 1, _, [] => []
  | f + 1, true, c :: rest =>
    match matchDirective (c :: rest) with
    | some p => ("flowchart " : String).data ++ p.1 ++ dirScan f false p.2
    | none => c :: dirScan f (c == '\n') rest
  | f + 1, false, c :: rest => c :: dirScan f (c == '\n') rest

/-- The whole substitution of line 116 (position 0 is a line start). -/
def directiveSub (s : List Char) : List Char := dirScan s.length true s

theorem dirAlt_length (r : List Char) (p : List Char × List Char)
    (h : dirAlt r = some p) : p.2.length + 2 ≤ r.length := by
  unfold dirAlt at h
  repeat' split at h
  all_goals cases h
  all_goals rename_i htok
  all_goals
    have hpre := ((Bool.and_eq_true _ _).mp htok).1
  all_goals
    have hle := (List.isPrefixOf_iff_prefix.mp hpre).length_le
  all_goals simp only [List.length_drop]
  all_goals simp at hle
  all_goals omega

theorem matchDirective_length (s : List Char) (p : List Char × List Char)
    (h : matchDirective s = some p) : p.2.length + 1 ≤ s.length := by
  unfold matchDirective at h
  split at h
  · rename_i hpre
    split at h
    · cases h
    · rename_i hws
      have h2 := dirAlt_length _ _ h
      have hle := (List.isPrefixOf_iff_prefix.mp hpre).length_le
      have hsplit := congrArg List.length
        (List.takeWhile_append_dropWhile (p := pyWs)
          (l := (s.dropWhile pyWs).drop 5))
      have hsub := (List.dropWhile_suffix (l := s) pyWs).length_le
      have htw : 1 ≤ (((s.dropWhile pyWs).drop 5).takeWhile pyWs).length := by
        cases hcc : ((s.dropWhile pyWs).drop 5).takeWhile pyWs with
        | nil => rw [hcc] at hws; simp at hws
        | cons a l => simp
      simp only [List.length_append, List.length_drop] at hsplit
      simp at hle
      omega
  · cases h

theorem dirScan_fuel : ∀ (f1 f2 : Nat) (b : Bool) (s : List Char),
    s.length ≤ f1 → s.length ≤ f2 → dirScan f1 b s = dirScan f2 b s := by
  intro f1
  induction f1 with
  | zero =>
    intro f2 b s h1 h2
    have hs : s = [] := List.eq_nil_of_length_eq_zero (Nat.le_zero.mp h1)
    subst hs
    cases f2 <;> cases b <;> simp [dirScan]
  | succ k ih =>
    intro f2 b s h1 h2
    cases s with
    | nil => cases f2 <;> cases b <;> simp [dirScan]
    | cons c rest =>
      cases f2 with
      | zero => simp at h2
      | succ m =>
        have h1' : rest.length ≤ k := by simpa using h1
        have h2' : rest.length ≤ m := by simpa using h2
        cases b with
        | false =>
          show c :: dirScan k (c == '\n') rest =
            c :: dirScan m (c == '\n') rest
          exact congrArg _ (ih m _ rest h1' h2')
        | true =>
          simp only [dirScan]
          cases hm : matchDirective (c :: rest) with
          | none => exact congrArg _ (ih m _ rest h1' h2')
          | some p =>
            have hlen := matchDirective_length _ _ hm
            simp only [List.length_cons] at hlen
            exact congrArg _ (congrArg _
              (ih m false p.2 (by omega) (by omega)))

/-- C10: the directive rewrite of `normalize_mermaid_block` turns a
leading `graph D` directive into `flowchart D` exactly for the direction
tokens D in TB, LR, RL, BT, and leaves a leading `graph TD` directive line
unchanged (scanning the remainder of the block either way); the same
holds for a directive that ends the block without a newline. -/
theorem normalize_mermaid_graph_directive (rest : List Char) :
    directiveSub (("graph TB\n" : String).data ++ rest) =
      ("flowchart TB\n" : String).data ++ directiveSub rest ∧
    directiveSub (("graph LR\n" : String).data ++ rest) =
      ("flowchart LR\n" : String).data ++ directiveSub rest ∧
    directiveSub (("graph RL\n" : String).data ++ rest) =
      ("flowchart RL\n" : String).data ++ directiveSub rest ∧
    directiveSub (("graph BT\n" : String).data ++ rest) =
      ("flowchart BT\n" : String).data ++ directiveSub rest ∧
    directiveSub (("graph TD\n" : String).data ++ rest) =
      ("graph TD\n" : String).data ++ directiveSub rest ∧
    directiveSub ("graph TB" : String).data =
      ("flowchart TB" : String).data ∧
    directiveSub ("graph TD" : String).data = ("graph TD" : String).data := by
  refine ⟨?_, ?_, ?_, ?_, ?_, by decide, by decide⟩
  · exact congrArg (fun t => ("flowchart TB\n" : String).data ++ t)
      (dirScan_fuel (rest.length + 7) rest.length true rest
        (by omega) (le_refl _))
  · exact congrArg (fun t => ("flowchart LR\n" : String).data ++ t)
      (dirScan_fuel (rest.length + 7) rest.length true rest
        (by omega) (le_refl _))
  · exact congrArg (fun t => ("flowchart RL\n" : String).data ++ t)
      (dirScan_fuel (rest.length + 7) rest.length true rest
        (by omega) (le_refl _))
  · exact congrArg (fun t => ("flowchart BT\n" : String).data ++ t)
      (dirScan_fuel (rest.length + 7) rest.length true rest
        (by omega) (le_refl _))
  · exact rfl
